import Mathlib

/-! Verification of the sensor acquisition and aggregation engine of
lx-thermals (src/thermals.py), shallowly embedded in Lean.

Filesystem state is embedded as explicit data: a hwmon directory is the
list of its temperature channels (each channel the contents of its
`temp<idx>_input` file together with the optional contents of the label
and crit files), its frequency channels and its fan file.  File contents
that the program parses with Python `int` are kept as strings, so that
parse failures (Python `ValueError`) are representable; an exception
escaping a function is modelled by an `Option` result being `none`.
Floating point arithmetic is modelled over `ℚ`. -/

namespace Thermals

/-! ## Python string primitives -/

/-- Python whitespace characters (the ones relevant to this program). -/
def pyWS (c : Char) : Bool :=
  c = ' ' || c = '\t' || c = '\n' || c = '\r'

def dropWS : List Char → List Char
  | [] => []
  | c :: cs => if pyWS c then dropWS cs else c :: cs

def dropWSEnd (cs : List Char) : List Char :=
  (dropWS cs.reverse).reverse

/-- Python `str.strip()`: remove leading and trailing whitespace. -/
def pyStrip (s : String) : String :=
  ⟨dropWSEnd (dropWS s.data)⟩

/-- Longest whitespace-free head of a character list, plus the remainder. -/
def takeTok : List Char → List Char × List Char
  | [] => ([], [])
  | c :: cs =>
    if pyWS c then ([], c :: cs)
    else
      let (t, r) := takeTok cs
      (c :: t, r)

/-- Python `str.split(maxsplit=1)` with no separator: first whitespace
delimited token, then the remainder of the string with its leading
whitespace removed; whitespace-only strings give `[]`. -/
def splitMax1 (s : String) : List String :=
  match dropWS s.data with
  | [] => []
  | c :: cs =>
    let (t, r) := takeTok (c :: cs)
    let r2 := dropWS r
    if r2 = [] then [⟨t⟩] else [⟨t⟩, ⟨r2⟩]

/-- Python `str.lower()` (ASCII letters, the case relevant here). -/
def strLower (s : String) : String :=
  ⟨s.data.map Char.toLower⟩

def startsList : List Char → List Char → Bool
  | [], _ => true
  | _ :: _, [] => false
  | p :: ps, c :: cs => p = c && startsList ps cs

/-- Python `str.startswith`. -/
def pyStarts (s pre : String) : Bool :=
  startsList pre.data s.data

def digitsValGo : List Char → Nat → Option Nat
  | [], acc => some acc
  | c :: cs, acc =>
    if c.isDigit then digitsValGo cs (acc * 10 + (c.toNat - 48)) else none

/-- Value of a non-empty all-digit character list. -/
def digitsVal : List Char → Option Nat
  | [] => none
  | c :: cs => digitsValGo (c :: cs) 0

/-- Python `int(string)` on decimal numerals: optional surrounding
whitespace, an optional sign, then digits; anything else raises
`ValueError`, modelled as `none`.  (Underscore digit grouping is not
modelled; the sensor files at issue hold plain numerals.) -/
def parsePyInt (s : String) : Option Int :=
  match dropWSEnd (dropWS s.data) with
  | '-' :: cs => (digitsVal cs).map (fun n => -(n : Int))
  | '+' :: cs => (digitsVal cs).map (fun n => (n : Int))
  | cs => (digitsVal cs).map (fun n => (n : Int))

/-! ## Colour helpers (thermals.py lines 161-166) -/

inductive Severity where
  | NORMAL
  | WARM
  | CRITICAL
deriving DecidableEq

def critColour : String := "#c0392b"

def warmColour : String := "#f39c12"

/-- thermals.py `temp_colour`: the foreground colour for a temperature,
`none` meaning the default colour. -/
def temp_colour (value : ℚ) : Option String :=
  if value ≥ 85 then some critColour
  else if value ≥ 80 then some warmColour
  else none

/-- The classifier of the spec, read off `temp_colour`: the critical
colour is the CRITICAL tier, the warm colour the WARM tier, no colour
the NORMAL tier. -/
def classify (value : ℚ) : Severity :=
  match temp_colour value with
  | some c => if c = critColour then .CRITICAL else .WARM
  | none => .NORMAL

/-! ## Hwmon model and reader (thermals.py lines 109-123)

A temperature channel is one `temp<idx>_input` file found by the glob,
together with the contents of the matching label / crit files when those
exist.  A hwmon directory carries its temperature channels (in glob
order), its `freq<idx>_input` channels and its `fan1_input` file; a
directory that does not exist is the directory with no channels, which
is what `Path.glob` yields for it. -/

structure Channel where
  idx : String
  inputContent : String
  labelContent : Option String
  critContent : Option String
deriving DecidableEq

structure HwmonDir where
  temps : List Channel
  freqs : List (String × Int)
  fan1 : Option Int
deriving DecidableEq

abbrev TempMap := List (String × ℚ × Option ℚ)

/-- Python dict assignment `results[name] = v`: replace the value of an
existing key in place, else append. -/
def dictInsert (k : String) (v : ℚ × Option ℚ) : TempMap → TempMap
  | [] => [(k, v.1, v.2)]
  | (k', v') :: rest =>
    if k' = k then (k, v.1, v.2) :: rest else (k', v') :: dictInsert k v rest

/-- Processing of one globbed channel: skipped (`some none`) when the
label file is missing, an entry when label exists and the numeric
contents parse, and `none` for the uncaught `ValueError` of `int()` on
malformed contents. -/
def readChan (c : Channel) : Option (Option (String × ℚ × Option ℚ)) :=
  match c.labelContent with
  | none => some none
  | some l =>
    match parsePyInt c.inputContent with
    | none => none
    | some v =>
      match c.critContent with
      | none => some (some (pyStrip l, (v : ℚ) / 1000, none))
      | some cc =>
        match parsePyInt cc with
        | none => none
        | some cv => some (some (pyStrip l, (v : ℚ) / 1000, some ((cv : ℚ) / 1000)))

def readHwmonGo : List Channel → TempMap → Option TempMap
  | [], acc => some acc
  | c :: cs, acc =>
    match readChan c with
    | none => none
    | some none => readHwmonGo cs acc
    | some (some (k, v, cr)) => readHwmonGo cs (dictInsert k (v, cr) acc)

/-- thermals.py `read_hwmon`: mapping from sensor label to
`(value °C, optional critical °C)` over the labelled temperature
channels; `none` models the uncaught `ValueError` on malformed numeric
contents. -/
def read_hwmon (d : HwmonDir) : Option TempMap :=
  readHwmonGo d.temps []

/-- Python `name in dict` / `dict[name]` on the result mapping. -/
def lookupTemp : TempMap → String → Option (ℚ × Option ℚ)
  | [], _ => none
  | (k, v, cr) :: rest, key => if k = key then some (v, cr) else lookupTemp rest key

/-- The entry one channel contributes when the read does not abort:
`none` when the channel is skipped (no label) or malformed. -/
def chanEntry (c : Channel) : Option (String × ℚ × Option ℚ) :=
  (readChan c).bind id

/-- The critical value a channel yields: the parsed `temp<idx>_crit`
contents divided by 1000 when that file exists, `none` otherwise. -/
def critValQ (c : Channel) : Option ℚ :=
  (c.critContent.bind parsePyInt).map (fun n => (Int.cast n : ℚ) / 1000)

/-- Whether all numeric contents the read of this channel would parse do
parse as Python integers. -/
def chanParses (c : Channel) : Bool :=
  (parsePyInt c.inputContent).isSome &&
  (match c.critContent with
   | none => true
   | some cc => (parsePyInt cc).isSome)

def keysOf (m : TempMap) : List String :=
  m.map (fun e => e.1)

/-- A concrete hwmon directory: two labelled channels (one with a crit
file) around an unlabelled one. -/
def sampleDir : HwmonDir :=
  ⟨[⟨"1", "45000", some "Tctl ", some "95000"⟩,
    ⟨"2", "1", none, none⟩,
    ⟨"3", "50000", some "Tccd1", none⟩], [], none⟩

/-! ## Clock / fan readers (thermals.py lines 128-156) -/

/-- thermals.py `read_cpu_clock` over the per-core
`cpufreq/scaling_cur_freq` entries (`none` = file absent for that core,
values in kHz): arithmetic mean in GHz, `none` when no entry present. -/
def read_cpu_clock (cores : List (Option Int)) : Option ℚ :=
  let freqs := cores.filterMap (fun o => o.map (fun n => (Int.cast n : ℚ) / 1000000))
  if freqs = [] then none else some (freqs.sum / freqs.length)

/-- The strictly positive `freq*_input` readings of one directory,
converted to MHz; zero (and negative) readings are dropped. -/
def posClocksOf (h : HwmonDir) : List ℚ :=
  h.freqs.filterMap (fun p => if 0 < p.2 then some ((p.2 : ℚ) / 1000000) else none)

/-- The `freq2_input` slot of one directory, in MHz. -/
def freq2Slot (h : HwmonDir) : Option ℚ :=
  (h.freqs.find? (fun p => p.1 == "2")).map (fun p => (p.2 : ℚ) / 1000000)

def gpuScan : List HwmonDir → List ℚ → Option ℚ → Option Int →
    List ℚ × Option ℚ × Option Int
  | [], cs, mem, fan => (cs, mem, fan)
  | h :: rest, cs, mem, fan =>
    gpuScan rest (cs ++ posClocksOf h) ((freq2Slot h).or mem) ((h.fan1).or fan)

/-- thermals.py `read_gpu_clocks_and_fan` over the configured GPU hwmon
directories: `(core clock MHz, memory clock MHz, fan rpm)`. -/
def read_gpu_clocks_and_fan (dirs : List HwmonDir) : Option ℚ × Option ℚ × Option Int :=
  match gpuScan dirs [] none none with
  | (cs, mem, fan) => (cs.max?, mem, fan)

/-- Last set value of an optional slot over the scanned directories:
`fan`/`mem_clock` are overwritten by each directory where the slot file
exists, so the last existing one wins. -/
def lastSlot (xs : List (Option α)) : Option α :=
  (xs.filterMap id).getLast?

/-! ## PCI identifier lookup (thermals.py lines 43-63)

The database text is embedded as its list of lines.  The scan keeps the
Python `current_vendor` variable; an uncaught `IndexError` (`parts[0]`
on a whitespace-only line, `parts[1]` on a nameless device line) is the
outer `none`, "not found" (Python `None`) is `some none`. -/

/-- `if not line or line.startswith("#")`: blank and comment lines are
skipped by the scan. -/
def skippedLine (l : String) : Bool :=
  (l = "") || pyStarts l "#"

def pciScan (vendor device : String) : List String → Option String → Option (Option String)
  | [], _ => some none
  | line :: rest, cv =>
    if skippedLine line then pciScan vendor device rest cv
    else if !(pyStarts line "\t") then
      match splitMax1 line with
      | [] => none
      | p0 :: ps =>
        pciScan vendor device rest (if strLower p0 = vendor then ps.head? else none)
    else
      match cv with
      | some v =>
        if v = "" then pciScan vendor device rest cv
        else
          match splitMax1 (pyStrip line) with
          | [] => none
          | p0 :: ps =>
            if strLower p0 = device then
              match ps with
              | [] => none
              | p1 :: _ => some (some (v ++ " " ++ p1))
            else pciScan vendor device rest cv
      | none => pciScan vendor device rest cv

/-- thermals.py `lookup_pci_name`: `dbExists` is whether the pci.ids
file exists, `db` its lines. -/
def lookup_pci_name (dbExists : Bool) (db : List String) (vendor device : String) :
    Option (Option String) :=
  if dbExists then pciScan (strLower vendor) (strLower device) db none
  else some none

/-- Whether a token list has an identifier followed by a name. -/
def has2Toks (ls : List String) : Bool :=
  match ls with
  | _ :: _ :: _ => true
  | _ => false

/-- A well-formed database line: blank, comment, or an identifier token
followed by a name. -/
def wfLine (l : String) : Bool :=
  skippedLine l || (has2Toks (splitMax1 l) && has2Toks (splitMax1 (pyStrip l)))

def wfDb (db : List String) : Prop :=
  ∀ l ∈ db, wfLine l = true

/-- An unindented vendor record line whose identifier matches `w`
case-insensitively (`w` is already lowered). -/
def vendorLineFor (w l : String) : Prop :=
  skippedLine l = false ∧ pyStarts l "\t" = false ∧
  ∃ t rest, splitMax1 l = t :: rest ∧ strLower t = w

/-- An indented device record line whose identifier matches `d`
case-insensitively (`d` is already lowered). -/
def deviceLineFor (d l : String) : Prop :=
  skippedLine l = false ∧ pyStarts l "\t" = true ∧
  ∃ t rest, splitMax1 (pyStrip l) = t :: rest ∧ strLower t = d

/-- A line that does not end the current vendor block: skipped or
indented. -/
def insideBlock (l : String) : Prop :=
  skippedLine l = true ∨ pyStarts l "\t" = true

/-- The database continues the current vendor block up to a device line
matching `d`: only skipped/indented lines, then the device line. -/
def contBlock (d : String) (db : List String) : Prop :=
  ∃ mid ld post, db = mid ++ ld :: post ∧
    (∀ l ∈ mid, insideBlock l) ∧ deviceLineFor d ld

/-- The database holds an unindented vendor line matching `w` followed,
before the next unindented non-skipped line, by an indented device line
matching `d`. -/
def hasEntry (w d : String) (db : List String) : Prop :=
  ∃ pre mid post lv ld, db = pre ++ lv :: (mid ++ ld :: post) ∧
    vendorLineFor w lv ∧ (∀ l ∈ mid, insideBlock l) ∧ deviceLineFor d ld

/-! ## Device name resolution (thermals.py lines 34-41 and 65-85) -/

/-- The characters after the first colon, modelling `split(":", 1)[1]`;
`none` when the line has no colon (Python raises `IndexError`, caught by
the surrounding handler). -/
def afterColon : List Char → Option (List Char)
  | [] => none
  | c :: cs => if c = ':' then some cs else afterColon cs

def goCpuName : List String → String
  | [] => "Unknown CPU"
  | l :: ls =>
    if pyStarts l "model name" then
      match afterColon l.data with
      | some rest => pyStrip ⟨rest⟩
      | none => "Unknown CPU"
    else goCpuName ls

/-- thermals.py `get_cpu_name` over the lines of /proc/cpuinfo
(`none` = the file could not be read). -/
def get_cpu_name (cpuinfo : Option (List String)) : String :=
  match cpuinfo with
  | none => "Unknown CPU"
  | some ls => goCpuName ls

def replace0xGo : List Char → List Char
  | [] => []
  | '0' :: 'x' :: rest => replace0xGo rest
  | c :: rest => c :: replace0xGo rest

/-- Python `str.replace("0x", "")`: drop every occurrence, left to
right, non-overlapping. -/
def pyReplace0x (s : String) : String :=
  ⟨replace0xGo s.data⟩

/-- One drm card directory: the contents of its `device/vendor` and
`device/device` files when those exist. -/
structure Card where
  vendorContent : Option String
  deviceContent : Option String
deriving DecidableEq

def gpuFallback (vendor device : String) : String :=
  "AMD Radeon [" ++ vendor ++ ":" ++ device ++ "]"

/-- A drm card exposing both identifier files. -/
def usableCard (c : Card) : Bool :=
  c.vendorContent.isSome && c.deviceContent.isSome

def goGpuName : List Card → Bool → List String → String × Bool
  | [], _, _ => ("Unknown GPU", false)
  | c :: cs, dbE, db =>
    match c.vendorContent, c.deviceContent with
    | some vc, some dc =>
      let vendor := pyReplace0x (pyStrip vc)
      let device := pyReplace0x (pyStrip dc)
      match lookup_pci_name dbE db vendor device with
      | none => ("Unknown GPU", false)
      | some (some nm) =>
        if nm = "" then (gpuFallback vendor device, false) else (nm, true)
      | some none => (gpuFallback vendor device, false)
    | _, _ => goGpuName cs dbE db

/-- thermals.py `get_gpu_name` over the enumerated card directories: the
first card exposing both identifier files decides the result; an
exception escaping the lookup is caught by the blanket handler, giving
`("Unknown GPU", false)`. -/
def get_gpu_name (cards : List Card) (dbExists : Bool) (db : List String) :
    String × Bool :=
  goGpuName cards dbExists db

/-! ## Aggregation state and the update loop (thermals.py lines 93-104
and 259-360) -/

structure Series where
  cur : Option ℚ
  mn : Option ℚ
  mx : Option ℚ
deriving DecidableEq

def initSeries : Series := ⟨none, none, none⟩

/-- The single-metric aggregation step appearing for every metric in
`update`: `m_min = t if m_min is None else min(m_min, t)`, dually for
max, the new sample becoming the displayed current value. -/
def updSeries (s : Series) (t : ℚ) : Series :=
  ⟨some t,
   some (match s.mn with | none => t | some m => min m t),
   some (match s.mx with | none => t | some m => max m t)⟩

structure State where
  cpu_pkg : Series
  cpu_die : Series
  cpu_clk : Series
  gpu_temp : Series
  gpu_hot : Series
  gpu_mem : Series
  gpu_clk : Series
  gpu_memclk : Series
  gpu_fan : Series
  nvme : Series
deriving DecidableEq

/-- All the module-level min/max globals start as `None`. -/
def initState : State :=
  ⟨initSeries, initSeries, initSeries, initSeries, initSeries,
   initSeries, initSeries, initSeries, initSeries, initSeries⟩

/-- The sensor sources one tick reads: the CPU hwmon directory, the
per-core cpufreq entries, the configured GPU hwmon directories and the
NVMe hwmon directory. -/
structure Env where
  cpuHw : HwmonDir
  cpuCores : List (Option Int)
  gpuHws : List HwmonDir
  nvmeHw : HwmonDir
deriving DecidableEq

def stepCpuPkg (cpu : TempMap) (s : State) : State :=
  match (lookupTemp cpu "Tctl") with
  | some tc => { s with cpu_pkg := updSeries s.cpu_pkg tc.1 }
  | none => s

def stepCpuDie (cpu : TempMap) (s : State) : State :=
  match (lookupTemp cpu "Tccd1") with
  | some tc => { s with cpu_die := updSeries s.cpu_die tc.1 }
  | none => s

/-- `if clk:` — Python truthiness skips both `None` and `0.0`. -/
def stepCpuClk (clk : Option ℚ) (s : State) : State :=
  match clk with
  | some c => if c = 0 then s else { s with cpu_clk := updSeries s.cpu_clk c }
  | none => s

def stepGpuEdge (g : TempMap) (s : State) : State :=
  match (lookupTemp g "edge") with
  | some tc => { s with gpu_temp := updSeries s.gpu_temp tc.1 }
  | none => s

def stepGpuHot (g : TempMap) (s : State) : State :=
  match (lookupTemp g "junction") with
  | some tc => { s with gpu_hot := updSeries s.gpu_hot tc.1 }
  | none => s

def stepGpuMem (g : TempMap) (s : State) : State :=
  match (lookupTemp g "mem") with
  | some tc => { s with gpu_mem := updSeries s.gpu_mem tc.1 }
  | none => s

def stepGpuDir (g : TempMap) (s : State) : State :=
  stepGpuMem g (stepGpuHot g (stepGpuEdge g s))

/-- The `for path in GPU_HWMONS` temperature loop of `update`. -/
def gpuTempsLoop : List HwmonDir → State → Option State
  | [], s => some s
  | d :: ds, s =>
    match read_hwmon d with
    | none => none
    | some g => gpuTempsLoop ds (stepGpuDir g s)

/-- `if gclk:` — truthiness again skips `None` and `0.0`. -/
def stepGpuClk (o : Option ℚ) (s : State) : State :=
  match o with
  | some c => if c = 0 then s else { s with gpu_clk := updSeries s.gpu_clk c }
  | none => s

/-- `if gmemclk:` — truthiness again skips `None` and `0.0`. -/
def stepGpuMemclk (o : Option ℚ) (s : State) : State :=
  match o with
  | some c => if c = 0 then s else { s with gpu_memclk := updSeries s.gpu_memclk c }
  | none => s

/-- `if gfan is not None:` — only absence is skipped, zero aggregates. -/
def stepGpuFan (o : Option Int) (s : State) : State :=
  match o with
  | some f => { s with gpu_fan := updSeries s.gpu_fan (f : ℚ) }
  | none => s

/-- `if nvme:` then `next(iter(nvme.items()))` — the first entry of a
non-empty mapping. -/
def stepNvme (nv : TempMap) (s : State) : State :=
  match nv with
  | [] => s
  | (_, t, _) :: _ => { s with nvme := updSeries s.nvme t }

/-- thermals.py `update` (lines 259-360): one tick, in source order —
CPU hwmon, Tctl, Tccd1, cpu clock, the GPU temperature loop, the GPU
clock/fan reader, NVMe.  `none` models an uncaught exception from a
malformed sensor file aborting the tick. -/
def update (e : Env) (s : State) : Option State :=
  match read_hwmon e.cpuHw with
  | none => none
  | some cpu =>
    match gpuTempsLoop e.gpuHws
        (stepCpuClk (read_cpu_clock e.cpuCores) (stepCpuDie cpu (stepCpuPkg cpu s))) with
    | none => none
    | some s2 =>
      match read_hwmon e.nvmeHw with
      | none => none
      | some nv =>
        some (stepNvme nv
          (stepGpuFan (read_gpu_clocks_and_fan e.gpuHws).2.2
            (stepGpuMemclk (read_gpu_clocks_and_fan e.gpuHws).2.1
              (stepGpuClk (read_gpu_clocks_and_fan e.gpuHws).1 s2))))

/-- The timer loop: successive ticks from a state. -/
def run : List Env → State → Option State
  | [], s => some s
  | e :: es, s =>
    match update e s with
    | none => none
    | some s' => run es s'

/-- A hwmon directory with no files at all: what a configured path that
does not exist reads as. -/
def emptyDir : HwmonDir := ⟨[], [], none⟩

/-- An environment where every sensor source is absent. -/
def quietEnv : Env := ⟨emptyDir, [], [], emptyDir⟩

/-- A state with some history in the CPU clock series. -/
def sampleState : State :=
  { initState with cpu_clk := ⟨some 3, some 2, some 4⟩ }

/-- An environment whose only reading is a GPU fan at exactly 0 rpm. -/
def fanZeroEnv : Env := ⟨emptyDir, [], [⟨[], [], some 0⟩], emptyDir⟩

end Thermals

namespace Thermals

/-- C2: the classifier returns CRITICAL iff the temperature is at least 85,
WARM iff it is at least 80 and below 85, and NORMAL iff it is below 80;
in particular classify 85 = CRITICAL, classify 84.9 = WARM and
classify 79.9 = NORMAL. -/
theorem classify_thresholds (t : ℚ) :
    (classify t = .CRITICAL ↔ 85 ≤ t) ∧
    (classify t = .WARM ↔ 80 ≤ t ∧ t < 85) ∧
    (classify t = .NORMAL ↔ t < 80) ∧
    classify 85 = .CRITICAL ∧ classify (849/10) = .WARM ∧
    classify (799/10) = .NORMAL := by
  have hwc : warmColour ≠ critColour := by decide
  have hc : classify t =
      (if 85 ≤ t then Severity.CRITICAL
       else if 80 ≤ t then Severity.WARM else Severity.NORMAL) := by
    unfold classify temp_colour
    by_cases h85 : (85:ℚ) ≤ t <;> by_cases h80 : (80:ℚ) ≤ t <;>
      simp [ge_iff_le, h85, h80, hwc]
  refine ⟨?_, ?_, ?_, ?_, ?_, ?_⟩
  · rw [hc]; split_ifs with h1 h2
    · exact ⟨fun _ => h1, fun _ => rfl⟩
    · exact ⟨fun h => absurd h (by decide), fun hh => absurd hh h1⟩
    · exact ⟨fun h => absurd h (by decide), fun hh => absurd hh h1⟩
  · rw [hc]; split_ifs with h1 h2
    · exact ⟨fun h => absurd h (by decide),
        fun hh => absurd hh.2 (not_lt.2 h1)⟩
    · exact ⟨fun _ => ⟨h2, not_le.1 h1⟩, fun _ => rfl⟩
    · exact ⟨fun h => absurd h (by decide), fun hh => absurd hh.1 h2⟩
  · rw [hc]; split_ifs with h1 h2
    · exact ⟨fun h => absurd h (by decide),
        fun hh => absurd hh (not_lt.2 (by linarith))⟩
    · exact ⟨fun h => absurd h (by decide), fun hh => absurd hh (not_lt.2 h2)⟩
    · exact ⟨fun _ => not_le.1 h2, fun _ => rfl⟩
  · simp [classify, temp_colour]
  · have hA : ¬ (85:ℚ) ≤ 849/10 := by norm_num
    have hB : (80:ℚ) ≤ 849/10 := by norm_num
    simp [classify, temp_colour, ge_iff_le, hA, hB, hwc]
  · have hA : ¬ (85:ℚ) ≤ 799/10 := by norm_num
    have hB : ¬ (80:ℚ) ≤ 799/10 := by norm_num
    simp [classify, temp_colour, ge_iff_le, hA, hB]

/-- Witness for C2: the CRITICAL side of the characterization at a
concrete temperature. -/
theorem classify_thresholds_witness : classify 90 = Severity.CRITICAL :=
  ((classify_thresholds 90).1).mpr (by norm_num)

/-! ## Aggregator lemmas -/

theorem foldl_updSeries_mn (ts : List ℚ) :
    ∀ (s : Series) (m0 : ℚ), s.mn = some m0 →
      ∃ m1, (ts.foldl updSeries s).mn = some m1 ∧ m1 ≤ m0 := by
  induction ts with
  | nil => exact fun s m0 h => ⟨m0, h, le_refl m0⟩
  | cons t ts ih =>
    intro s m0 h
    have h2 : (updSeries s t).mn = some (min m0 t) := by simp [updSeries, h]
    obtain ⟨m1, hm1, hle⟩ := ih (updSeries s t) (min m0 t) h2
    exact ⟨m1, hm1, le_trans hle (min_le_left _ _)⟩

theorem foldl_updSeries_mx (ts : List ℚ) :
    ∀ (s : Series) (M0 : ℚ), s.mx = some M0 →
      ∃ M1, (ts.foldl updSeries s).mx = some M1 ∧ M0 ≤ M1 := by
  induction ts with
  | nil => exact fun s M0 h => ⟨M0, h, le_refl M0⟩
  | cons t ts ih =>
    intro s M0 h
    have h2 : (updSeries s t).mx = some (max M0 t) := by simp [updSeries, h]
    obtain ⟨M1, hM1, hle⟩ := ih (updSeries s t) (max M0 t) h2
    exact ⟨M1, hM1, le_trans (le_max_left _ _) hle⟩

/-- C1: on the first sample the aggregation step sets
current = min = max = value, and every update keeps min ≤ current ≤ max
with the new min below the old one and the new max above it; along any
further run of samples the min keeps decreasing and the max keeps
increasing. -/
theorem aggregator_min_max_invariant (s : Series) (t : ℚ) :
    updSeries initSeries t = ⟨some t, some t, some t⟩ ∧
    (∃ m M, updSeries s t = ⟨some t, some m, some M⟩ ∧ m ≤ t ∧ t ≤ M ∧
      (∀ m0, s.mn = some m0 → m ≤ m0) ∧ (∀ M0, s.mx = some M0 → M0 ≤ M)) ∧
    (∀ (ts : List ℚ) (m0 : ℚ), (updSeries s t).mn = some m0 →
      ∃ m1, (ts.foldl updSeries (updSeries s t)).mn = some m1 ∧ m1 ≤ m0) ∧
    (∀ (ts : List ℚ) (M0 : ℚ), (updSeries s t).mx = some M0 →
      ∃ M1, (ts.foldl updSeries (updSeries s t)).mx = some M1 ∧ M0 ≤ M1) := by
  refine ⟨rfl, ?_, fun ts m0 h => foldl_updSeries_mn ts _ m0 h,
    fun ts M0 h => foldl_updSeries_mx ts _ M0 h⟩
  refine ⟨(match s.mn with | none => t | some m => min m t),
    (match s.mx with | none => t | some M => max M t), rfl, ?_, ?_, ?_, ?_⟩
  · cases hs : s.mn <;> simp [hs, min_le_right]
  · cases hs : s.mx <;> simp [hs, le_max_right]
  · intro m0 h; simp [h, min_le_left]
  · intro M0 h; simp [h, le_max_left]

/-- Witness for C1 at a concrete series and sample. -/
theorem aggregator_min_max_invariant_witness :
    ∃ m M, updSeries ⟨some 5, some 3, some 7⟩ 4 = ⟨some 4, some m, some M⟩ ∧
      m ≤ 3 ∧ 7 ≤ M := by
  obtain ⟨-, ⟨m, M, heq, -, -, hmono, hMono⟩, -, -⟩ :=
    aggregator_min_max_invariant ⟨some 5, some 3, some 7⟩ 4
  exact ⟨m, M, heq, hmono 3 rfl, hMono 7 rfl⟩

/-- C4 (code bug): a missing directory does give the empty mapping, but
malformed numeric content in one channel makes `read_hwmon` abort the
whole read with an uncaught `ValueError` (modelled `none`) instead of
excluding just that channel — here the valid `Tccd1` channel is lost
with it. -/
theorem read_hwmon_malformed_aborts :
    read_hwmon ⟨[], [], none⟩ = some [] ∧
    read_hwmon ⟨[⟨"1", "abc", some "Tctl", none⟩,
                 ⟨"2", "50000", some "Tccd1", none⟩], [], none⟩ = none :=
  ⟨rfl, rfl⟩

/-! ## CPU clock lemmas -/

theorem filterMap_option_map (cores : List (Option Int)) (f : Int → ℚ) :
    cores.filterMap (fun o => Option.map f o) = (cores.filterMap id).map f := by
  induction cores with
  | nil => rfl
  | cons o os ih => cases o <;> simp [List.filterMap_cons, ih]

theorem list_sum_div (l : List ℚ) (d : ℚ) :
    (l.map (fun x => x / d)).sum = l.sum / d := by
  induction l with
  | nil => simp
  | cons a l ih => simp [ih, add_div]

/-- C7: the CPU clock reader returns the arithmetic mean of the present
cores' frequencies converted from kHz to GHz, skipping absent entries,
and `none` (never zero) when no entry is present. -/
theorem read_cpu_clock_mean (cores : List (Option Int)) :
    read_cpu_clock cores =
      (if cores.filterMap id = [] then none
       else some ((((cores.filterMap id).map (fun n => (Int.cast n : ℚ))).sum /
         (cores.filterMap id).length) / 1000000)) ∧
    read_cpu_clock [] = none ∧
    read_cpu_clock [some 3000000, none, some 5000000] = some 4 := by
  refine ⟨?_, rfl, ?_⟩
  · unfold read_cpu_clock
    rw [filterMap_option_map cores (fun n => (Int.cast n : ℚ) / 1000000)]
    by_cases he : cores.filterMap id = []
    · simp [he]
    · rw [if_neg (by simp [he]), if_neg he]
      rw [show (fun n : Int => (Int.cast n : ℚ) / 1000000)
            = (fun x : ℚ => x / 1000000) ∘ (fun n : Int => (Int.cast n : ℚ)) from rfl]
      rw [← List.map_map, list_sum_div]
      simp only [List.length_map]
      congr 1
      ring
  · unfold read_cpu_clock
    norm_num [List.filterMap_cons]
    intro h
    exact absurd h (by simp)

/-! ## GPU clock/fan reader lemmas -/

theorem getLast?_cons_or (l : List α) :
    ∀ v : α, (v :: l).getLast? = l.getLast?.or (some v) := by
  induction l with
  | nil => intro v; rfl
  | cons w l ih =>
    intro v
    rw [List.getLast?_cons_cons, ih w]
    cases l.getLast? <;> rfl

theorem lastSlot_cons (x : Option α) (xs : List (Option α)) :
    lastSlot (x :: xs) = (lastSlot xs).or x := by
  cases x with
  | none => simp [lastSlot, List.filterMap_cons]
  | some v => simp [lastSlot, List.filterMap_cons, getLast?_cons_or]

theorem gpuScan_spec (dirs : List HwmonDir) :
    ∀ (cs : List ℚ) (mem : Option ℚ) (fan : Option Int),
      gpuScan dirs cs mem fan =
        (cs ++ dirs.flatMap posClocksOf,
         (lastSlot (dirs.map freq2Slot)).or mem,
         (lastSlot (dirs.map (fun h => h.fan1))).or fan) := by
  induction dirs with
  | nil => intro cs mem fan; simp [gpuScan, lastSlot]
  | cons h t ih =>
    intro cs mem fan
    rw [gpuScan, ih]
    simp [lastSlot_cons, Option.or_assoc, List.flatMap_cons]

/-- C8: the reported GPU core clock is the maximum of the strictly
positive frequency channel readings across all scanned directories
(zero-valued channels excluded, `none` when no positive reading
exists), while the memory clock and fan come from the fixed slot of the
last scanned directory in which that slot exists. -/
theorem read_gpu_clocks_and_fan_spec (dirs : List HwmonDir) :
    ((read_gpu_clocks_and_fan dirs).1 = none ↔ dirs.flatMap posClocksOf = []) ∧
    (∀ q, (read_gpu_clocks_and_fan dirs).1 = some q →
      q ∈ dirs.flatMap posClocksOf ∧ ∀ r ∈ dirs.flatMap posClocksOf, r ≤ q) ∧
    (read_gpu_clocks_and_fan dirs).2.1 = lastSlot (dirs.map freq2Slot) ∧
    (read_gpu_clocks_and_fan dirs).2.2 = lastSlot (dirs.map (fun h => h.fan1)) := by
  have hrw : read_gpu_clocks_and_fan dirs =
      ((dirs.flatMap posClocksOf).max?,
       lastSlot (dirs.map freq2Slot),
       lastSlot (dirs.map (fun h => h.fan1))) := by
    unfold read_gpu_clocks_and_fan
    rw [gpuScan_spec dirs [] none none]
    simp
  rw [hrw]
  haveI : Std.Antisymm ((· : ℚ) ≤ ·) := ⟨fun h1 h2 => le_antisymm h1 h2⟩
  refine ⟨List.max?_eq_none_iff, ?_, rfl, rfl⟩
  intro q hq
  exact (List.max?_eq_some_iff (fun a => le_refl a) (fun a b => max_choice a b)
    (fun _ _ _ => max_le_iff)).mp hq

/-- Witness for C8: a concrete directory whose single positive channel
is the reported maximum. -/
theorem read_gpu_clocks_and_fan_spec_witness :
    (500 : ℚ) ∈ List.flatMap
      [(⟨[], [("1", 500000000)], some 1200⟩ : HwmonDir)] posClocksOf ∧
    ∀ r ∈ List.flatMap
      [(⟨[], [("1", 500000000)], some 1200⟩ : HwmonDir)] posClocksOf,
      r ≤ 500 := by
  have hpos : posClocksOf (⟨[], [("1", 500000000)], some 1200⟩ : HwmonDir) =
      [500] := by
    simp [posClocksOf, List.filterMap_cons]
    norm_num
  have h1 : (read_gpu_clocks_and_fan
      [(⟨[], [("1", 500000000)], some 1200⟩ : HwmonDir)]).1 = some 500 := by
    simp [read_gpu_clocks_and_fan, gpuScan, hpos]
  exact (read_gpu_clocks_and_fan_spec _).2.1 500 h1

/-! ## Sensor reader lemmas (towards C3) -/

theorem readChan_eq_some (c : Channel)
    (h : c.labelContent.isSome → chanParses c = true) :
    readChan c = some (chanEntry c) := by
  cases hl : c.labelContent with
  | none => simp [readChan, chanEntry, hl]
  | some l =>
    have hp := h (by simp [hl])
    simp only [chanParses, Bool.and_eq_true] at hp
    obtain ⟨hv, hcrit⟩ := hp
    obtain ⟨v, hv⟩ := Option.isSome_iff_exists.mp hv
    cases hcc : c.critContent with
    | none => simp [readChan, chanEntry, hl, hv, hcc]
    | some cc =>
      rw [hcc] at hcrit
      simp only [] at hcrit
      obtain ⟨cv, hcv⟩ := Option.isSome_iff_exists.mp hcrit
      simp [readChan, chanEntry, hl, hv, hcc, hcv]

theorem chanEntry_of_label (c : Channel) {l : String}
    (hl : c.labelContent = some l) (hp : chanParses c = true) :
    ∃ v, parsePyInt c.inputContent = some v ∧
      chanEntry c = some (pyStrip l, (Int.cast v : ℚ) / 1000, critValQ c) := by
  simp only [chanParses, Bool.and_eq_true] at hp
  obtain ⟨hv, hcrit⟩ := hp
  obtain ⟨v, hv⟩ := Option.isSome_iff_exists.mp hv
  refine ⟨v, hv, ?_⟩
  cases hcc : c.critContent with
  | none => simp [chanEntry, readChan, critValQ, hl, hv, hcc]
  | some cc =>
    rw [hcc] at hcrit
    simp only [] at hcrit
    obtain ⟨cv, hcv⟩ := Option.isSome_iff_exists.mp hcrit
    simp [chanEntry, readChan, critValQ, hl, hv, hcc, hcv]

theorem chanEntry_key (c : Channel) (e : String × ℚ × Option ℚ)
    (h : chanEntry c = some e) :
    ∃ l, c.labelContent = some l ∧ e.1 = pyStrip l := by
  obtain ⟨e1, e2, e3⟩ := e
  unfold chanEntry readChan at h
  cases hl : c.labelContent with
  | none => rw [hl] at h; simp at h
  | some l =>
    rw [hl] at h
    refine ⟨l, rfl, ?_⟩
    cases hv : parsePyInt c.inputContent with
    | none => rw [hv] at h; simp at h
    | some v =>
      rw [hv] at h
      cases hcc : c.critContent with
      | none =>
        rw [hcc] at h
        simp only [Option.some_bind, id_eq, Option.some.injEq, Prod.mk.injEq] at h
        exact h.1.symm
      | some cc =>
        rw [hcc] at h
        cases hcv : parsePyInt cc with
        | none => simp [hcv] at h
        | some cv =>
          simp only [hcv, Option.some_bind, id_eq, Option.some.injEq,
            Prod.mk.injEq] at h
          exact h.1.symm

theorem keysOf_cons (e : String × ℚ × Option ℚ) (m : TempMap) :
    keysOf (e :: m) = e.1 :: keysOf m := rfl

theorem keysOf_append (m m' : TempMap) :
    keysOf (m ++ m') = keysOf m ++ keysOf m' := by
  simp [keysOf]

theorem chanEntry_label_none (c : Channel) (hl : c.labelContent = none) :
    chanEntry c = none := by
  simp [chanEntry, readChan, hl]

theorem keysOf_filterMap (temps : List Channel) :
    (∀ c ∈ temps, c.labelContent.isSome → chanParses c = true) →
    keysOf (temps.filterMap chanEntry) =
      temps.filterMap (fun c => c.labelContent.map pyStrip) := by
  induction temps with
  | nil => intro _; rfl
  | cons c cs ih =>
    intro hp
    have hpc := hp c (List.mem_cons_self c cs)
    have hrest := fun c' hc' => hp c' (List.mem_cons_of_mem c hc')
    cases hl : c.labelContent with
    | none =>
      simp [List.filterMap_cons, chanEntry_label_none c hl, hl, ih hrest]
    | some l =>
      obtain ⟨v, hv, he⟩ := chanEntry_of_label c hl (hpc (by simp [hl]))
      simp [List.filterMap_cons, he, hl, keysOf_cons, ih hrest]

theorem dictInsert_fresh (k : String) (v : ℚ) (cr : Option ℚ) :
    ∀ m : TempMap, k ∉ keysOf m → dictInsert k (v, cr) m = m ++ [(k, v, cr)] := by
  intro m
  induction m with
  | nil => intro _; rfl
  | cons e m ih =>
    intro hk
    obtain ⟨k', v'⟩ := e
    rw [keysOf_cons] at hk
    have hne : ¬ (k' = k) := fun h => hk (by simp [h])
    have hk2 : k ∉ keysOf m := fun h => hk (List.mem_cons_of_mem _ h)
    simp [dictInsert, hne, ih hk2]

theorem readHwmonGo_cons_skip (c : Channel) (cs : List Channel) (acc : TempMap)
    (h : readChan c = some none) :
    readHwmonGo (c :: cs) acc = readHwmonGo cs acc := by
  rw [readHwmonGo, h]

theorem readHwmonGo_cons_entry (c : Channel) (cs : List Channel) (acc : TempMap)
    (k : String) (v : ℚ) (cr : Option ℚ) (h : readChan c = some (some (k, v, cr))) :
    readHwmonGo (c :: cs) acc = readHwmonGo cs (dictInsert k (v, cr) acc) := by
  rw [readHwmonGo, h]

theorem readHwmonGo_eq (temps : List Channel) :
    ∀ acc : TempMap,
      (∀ c ∈ temps, c.labelContent.isSome → chanParses c = true) →
      (keysOf acc ++ temps.filterMap (fun c => c.labelContent.map pyStrip)).Nodup →
      readHwmonGo temps acc = some (acc ++ temps.filterMap chanEntry) := by
  induction temps with
  | nil => intro acc _ _; simp [readHwmonGo]
  | cons c cs ih =>
    intro acc hp hnd
    have hpc := hp c (List.mem_cons_self c cs)
    have hrest := fun c' hc' => hp c' (List.mem_cons_of_mem c hc')
    cases hl : c.labelContent with
    | none =>
      have hskip : readChan c = some none := by
        rw [readChan_eq_some c hpc, chanEntry_label_none c hl]
      rw [readHwmonGo_cons_skip c cs acc hskip]
      simp only [List.filterMap_cons, chanEntry_label_none c hl]
      exact ih acc hrest (by simpa [List.filterMap_cons, hl] using hnd)
    | some l =>
      obtain ⟨v, hv, he⟩ := chanEntry_of_label c hl (hpc (by simp [hl]))
      have hentry : readChan c =
          some (some (pyStrip l, (Int.cast v : ℚ) / 1000, critValQ c)) := by
        rw [readChan_eq_some c hpc, he]
      rw [readHwmonGo_cons_entry c cs acc _ _ _ hentry]
      simp only [List.filterMap_cons, hl, Option.map_some] at hnd
      have hdisj := (List.nodup_append.mp hnd).2.2
      have hfresh : pyStrip l ∉ keysOf acc :=
        fun hmem => hdisj hmem (List.mem_cons_self _ _)
      rw [dictInsert_fresh _ _ _ acc hfresh]
      have hnd2 : (keysOf (acc ++ [(pyStrip l, (Int.cast v : ℚ) / 1000, critValQ c)]) ++
          cs.filterMap (fun c => c.labelContent.map pyStrip)).Nodup := by
        rw [keysOf_append, keysOf_cons]
        simpa [List.append_assoc] using hnd
      rw [ih _ hrest hnd2]
      simp [List.filterMap_cons, he]

theorem lookupTemp_mem_nodup :
    ∀ m : TempMap, (keysOf m).Nodup → ∀ e ∈ m, lookupTemp m e.1 = some e.2 := by
  intro m
  induction m with
  | nil => intro _ e he; cases he
  | cons f m ih =>
    intro hnd e he
    obtain ⟨k, v, cr⟩ := f
    rw [keysOf_cons] at hnd
    cases he with
    | head => simp [lookupTemp]
    | tail _ hm =>
      have hk : k ∉ keysOf m := (List.nodup_cons.mp hnd).1
      have hmem : e.1 ∈ keysOf m := List.mem_map_of_mem (fun e => e.1) hm
      have hne : ¬ (k = e.1) := fun h => hk (h ▸ hmem)
      simp only [lookupTemp, if_neg hne]
      exact ih (List.nodup_cons.mp hnd).2 e hm

/-- C3: on a directory whose labelled channels all carry well-formed
integers and pairwise distinct labels, `read_hwmon` succeeds and its
mapping contains a channel exactly when the channel's value file (the
glob hit) and label file both exist; the mapped value is the on-disk
integer divided by 1000, the critical entry is the crit file's integer
divided by 1000 when that file exists and `none` otherwise, and
channels without a label file contribute nothing. -/
theorem read_hwmon_label_policy (d : HwmonDir)
    (hp : ∀ c ∈ d.temps, c.labelContent.isSome → chanParses c = true)
    (hd : (d.temps.filterMap (fun c => c.labelContent.map pyStrip)).Nodup) :
    ∃ m, read_hwmon d = some m ∧
      (∀ c ∈ d.temps, ∀ l, c.labelContent = some l →
        ∃ v, parsePyInt c.inputContent = some v ∧
          lookupTemp m (pyStrip l) = some ((Int.cast v : ℚ) / 1000, critValQ c)) ∧
      (∀ k val cr, (k, val, cr) ∈ m →
        ∃ c ∈ d.temps, ∃ l, c.labelContent = some l ∧ pyStrip l = k) ∧
      (∀ c : Channel, c.critContent = none → critValQ c = none) := by
  refine ⟨d.temps.filterMap chanEntry, ?_, ?_, ?_, ?_⟩
  · have h := readHwmonGo_eq d.temps [] hp (by simpa [keysOf] using hd)
    simpa [read_hwmon] using h
  · intro c hc l hl
    obtain ⟨v, hv, he⟩ := chanEntry_of_label c hl (hp c hc (by simp [hl]))
    refine ⟨v, hv, ?_⟩
    have hmem : (pyStrip l, (Int.cast v : ℚ) / 1000, critValQ c) ∈
        d.temps.filterMap chanEntry := List.mem_filterMap.mpr ⟨c, hc, he⟩
    have hnd2 : (keysOf (d.temps.filterMap chanEntry)).Nodup := by
      rw [keysOf_filterMap d.temps hp]; exact hd
    have h := lookupTemp_mem_nodup _ hnd2 _ hmem
    simpa using h
  · intro k val cr hmem
    obtain ⟨c, hc, he⟩ := List.mem_filterMap.mp hmem
    obtain ⟨l, hl, hk⟩ := chanEntry_key c _ he
    exact ⟨c, hc, l, hl, hk.symm⟩
  · intro c h
    simp [critValQ, h]

/-! ## Shapes of the update steps (towards C9 and C10) -/

theorem stepCpuPkg_shape (cpu : TempMap) (s : State) :
    stepCpuPkg cpu s = { s with cpu_pkg :=
      match (lookupTemp cpu "Tctl") with
      | some tc => updSeries s.cpu_pkg tc.1
      | none => s.cpu_pkg } := by
  unfold stepCpuPkg
  cases lookupTemp cpu "Tctl" <;> rfl

theorem stepCpuDie_shape (cpu : TempMap) (s : State) :
    stepCpuDie cpu s = { s with cpu_die :=
      match (lookupTemp cpu "Tccd1") with
      | some tc => updSeries s.cpu_die tc.1
      | none => s.cpu_die } := by
  unfold stepCpuDie
  cases lookupTemp cpu "Tccd1" <;> rfl

theorem stepCpuClk_shape (clk : Option ℚ) (s : State) :
    stepCpuClk clk s = { s with cpu_clk :=
      match clk with
      | some c => if c = 0 then s.cpu_clk else updSeries s.cpu_clk c
      | none => s.cpu_clk } := by
  unfold stepCpuClk
  cases clk with
  | none => rfl
  | some c =>
    dsimp only
    split <;> rfl

theorem stepGpuClk_shape (o : Option ℚ) (s : State) :
    stepGpuClk o s = { s with gpu_clk :=
      match o with
      | some c => if c = 0 then s.gpu_clk else updSeries s.gpu_clk c
      | none => s.gpu_clk } := by
  unfold stepGpuClk
  cases o with
  | none => rfl
  | some c =>
    dsimp only
    split <;> rfl

theorem stepGpuMemclk_shape (o : Option ℚ) (s : State) :
    stepGpuMemclk o s = { s with gpu_memclk :=
      match o with
      | some c => if c = 0 then s.gpu_memclk else updSeries s.gpu_memclk c
      | none => s.gpu_memclk } := by
  unfold stepGpuMemclk
  cases o with
  | none => rfl
  | some c =>
    dsimp only
    split <;> rfl

theorem stepGpuFan_shape (o : Option Int) (s : State) :
    stepGpuFan o s = { s with gpu_fan :=
      match o with
      | some f => updSeries s.gpu_fan (Int.cast f)
      | none => s.gpu_fan } := by
  unfold stepGpuFan
  cases o <;> rfl

theorem stepNvme_shape (nv : TempMap) (s : State) :
    stepNvme nv s = { s with nvme :=
      match nv with
      | [] => s.nvme
      | (_, t, _) :: _ => updSeries s.nvme t } := by
  cases nv with
  | nil => rfl
  | cons e rest =>
    obtain ⟨k, t, cr⟩ := e
    rfl

theorem stepGpuDir_shape (g : TempMap) (s : State) :
    stepGpuDir g s = { s with
      gpu_temp := match (lookupTemp g "edge") with
        | some tc => updSeries s.gpu_temp tc.1
        | none => s.gpu_temp,
      gpu_hot := match (lookupTemp g "junction") with
        | some tc => updSeries s.gpu_hot tc.1
        | none => s.gpu_hot,
      gpu_mem := match (lookupTemp g "mem") with
        | some tc => updSeries s.gpu_mem tc.1
        | none => s.gpu_mem } := by
  unfold stepGpuDir stepGpuEdge stepGpuHot stepGpuMem
  cases lookupTemp g "edge" <;> cases lookupTemp g "junction" <;>
    cases lookupTemp g "mem" <;> rfl

/-! ## Totality of the readers on well-formed directories -/

theorem readHwmonGo_total (temps : List Channel) :
    ∀ acc : TempMap,
      (∀ c ∈ temps, c.labelContent.isSome → chanParses c = true) →
      ∃ m, readHwmonGo temps acc = some m := by
  induction temps with
  | nil => exact fun acc _ => ⟨acc, rfl⟩
  | cons c cs ih =>
    intro acc hp
    have hpc := hp c (List.mem_cons_self c cs)
    have hrest := fun c' hc' => hp c' (List.mem_cons_of_mem c hc')
    cases hce : chanEntry c with
    | none =>
      have hskip : readChan c = some none := by
        rw [readChan_eq_some c hpc, hce]
      rw [readHwmonGo_cons_skip c cs acc hskip]
      exact ih acc hrest
    | some e =>
      obtain ⟨k, vv, cr⟩ := e
      have hentry : readChan c = some (some (k, vv, cr)) := by
        rw [readChan_eq_some c hpc, hce]
      rw [readHwmonGo_cons_entry c cs acc _ _ _ hentry]
      exact ih _ hrest

theorem read_hwmon_total (d : HwmonDir)
    (hp : ∀ c ∈ d.temps, c.labelContent.isSome → chanParses c = true) :
    ∃ m, read_hwmon d = some m :=
  readHwmonGo_total d.temps [] hp

theorem gpuTempsLoop_total (ds : List HwmonDir) :
    ∀ s : State,
      (∀ d ∈ ds, ∀ c ∈ d.temps, c.labelContent.isSome → chanParses c = true) →
      ∃ s', gpuTempsLoop ds s = some s' := by
  induction ds with
  | nil => exact fun s _ => ⟨s, rfl⟩
  | cons d ds ih =>
    intro s hw
    obtain ⟨g, hg⟩ := read_hwmon_total d (hw d (List.mem_cons_self _ _))
    obtain ⟨s', hs'⟩ :=
      ih (stepGpuDir g s) (fun d' hd' => hw d' (List.mem_cons_of_mem _ hd'))
    refine ⟨s', ?_⟩
    rw [gpuTempsLoop, hg]
    exact hs'

theorem gpuTempsLoop_frame (ds : List HwmonDir) :
    ∀ s s' : State, gpuTempsLoop ds s = some s' →
      s'.cpu_pkg = s.cpu_pkg ∧ s'.cpu_die = s.cpu_die ∧ s'.cpu_clk = s.cpu_clk ∧
      s'.gpu_clk = s.gpu_clk ∧ s'.gpu_memclk = s.gpu_memclk ∧
      s'.gpu_fan = s.gpu_fan ∧ s'.nvme = s.nvme := by
  induction ds with
  | nil =>
    intro s s' h
    cases Option.some.inj h
    exact ⟨rfl, rfl, rfl, rfl, rfl, rfl, rfl⟩
  | cons d ds ih =>
    intro s s' h
    rw [gpuTempsLoop] at h
    cases hg : read_hwmon d with
    | none => rw [hg] at h; cases h
    | some g =>
      rw [hg] at h
      have hh : gpuTempsLoop ds (stepGpuDir g s) = some s' := h
      obtain ⟨f1, f2, f3, f4, f5, f6, f7⟩ := ih (stepGpuDir g s) s' hh
      rw [stepGpuDir_shape] at f1 f2 f3 f4 f5 f6 f7
      exact ⟨f1, f2, f3, f4, f5, f6, f7⟩

theorem gpuTempsLoop_absent (ds : List HwmonDir) :
    ∀ s s' : State, gpuTempsLoop ds s = some s' →
      ((∀ d ∈ ds, ∀ m, read_hwmon d = some m → lookupTemp m "edge" = none) →
        s'.gpu_temp = s.gpu_temp) ∧
      ((∀ d ∈ ds, ∀ m, read_hwmon d = some m → lookupTemp m "junction" = none) →
        s'.gpu_hot = s.gpu_hot) ∧
      ((∀ d ∈ ds, ∀ m, read_hwmon d = some m → lookupTemp m "mem" = none) →
        s'.gpu_mem = s.gpu_mem) := by
  induction ds with
  | nil =>
    intro s s' h
    cases Option.some.inj h
    exact ⟨fun _ => rfl, fun _ => rfl, fun _ => rfl⟩
  | cons d ds ih =>
    intro s s' h
    rw [gpuTempsLoop] at h
    cases hg : read_hwmon d with
    | none => rw [hg] at h; cases h
    | some g =>
      rw [hg] at h
      have hh : gpuTempsLoop ds (stepGpuDir g s) = some s' := h
      obtain ⟨t1, t2, t3⟩ := ih (stepGpuDir g s) s' hh
      refine ⟨?_, ?_, ?_⟩
      · intro hcond
        have he := hcond d (List.mem_cons_self _ _) g hg
        have h1 := t1 (fun d' hd' => hcond d' (List.mem_cons_of_mem _ hd'))
        rw [h1, stepGpuDir_shape, he]
      · intro hcond
        have he := hcond d (List.mem_cons_self _ _) g hg
        have h1 := t2 (fun d' hd' => hcond d' (List.mem_cons_of_mem _ hd'))
        rw [h1, stepGpuDir_shape, he]
      · intro hcond
        have he := hcond d (List.mem_cons_self _ _) g hg
        have h1 := t3 (fun d' hd' => hcond d' (List.mem_cons_of_mem _ hd'))
        rw [h1, stepGpuDir_shape, he]

/-! ## Composite shapes of the head and tail of one tick -/

theorem headSteps_shape (cpu : TempMap) (clk : Option ℚ) (s : State) :
    ∃ a b c2, stepCpuClk clk (stepCpuDie cpu (stepCpuPkg cpu s)) =
      { s with cpu_pkg := a, cpu_die := b, cpu_clk := c2 } ∧
      (lookupTemp cpu "Tctl" = none → a = s.cpu_pkg) ∧
      (lookupTemp cpu "Tccd1" = none → b = s.cpu_die) ∧
      (c2 = s.cpu_clk ∨ ∃ q, clk = some q ∧ q ≠ 0 ∧ c2 = updSeries s.cpu_clk q) := by
  refine ⟨(match (lookupTemp cpu "Tctl") with
            | some tc => updSeries s.cpu_pkg tc.1 | none => s.cpu_pkg),
          (match (lookupTemp cpu "Tccd1") with
            | some tc => updSeries s.cpu_die tc.1 | none => s.cpu_die),
          (match clk with
            | some c => if c = 0 then s.cpu_clk else updSeries s.cpu_clk c
            | none => s.cpu_clk), ?_, ?_, ?_, ?_⟩
  · rw [stepCpuPkg_shape, stepCpuDie_shape, stepCpuClk_shape]
  · intro h; rw [h]
  · intro h; rw [h]
  · cases hclk : clk with
    | none => exact Or.inl rfl
    | some c =>
      by_cases hc : c = 0
      · exact Or.inl (by simp [hc])
      · exact Or.inr ⟨c, rfl, hc, by simp [hc]⟩

theorem tailSteps_shape (nv : TempMap) (gfan : Option Int)
    (gmemclk gclk : Option ℚ) (x : State) :
    ∃ a b c2 d2,
      stepNvme nv (stepGpuFan gfan (stepGpuMemclk gmemclk (stepGpuClk gclk x))) =
        { x with gpu_clk := a, gpu_memclk := b, gpu_fan := c2, nvme := d2 } ∧
      (a = x.gpu_clk ∨ ∃ q, gclk = some q ∧ q ≠ 0 ∧ a = updSeries x.gpu_clk q) ∧
      (b = x.gpu_memclk ∨ ∃ q, gmemclk = some q ∧ q ≠ 0 ∧ b = updSeries x.gpu_memclk q) ∧
      (gfan = none → c2 = x.gpu_fan) ∧
      (∀ f, gfan = some f → c2 = updSeries x.gpu_fan (Int.cast f)) ∧
      (nv = [] → d2 = x.nvme) := by
  refine ⟨(match gclk with
            | some c => if c = 0 then x.gpu_clk else updSeries x.gpu_clk c
            | none => x.gpu_clk),
          (match gmemclk with
            | some c => if c = 0 then x.gpu_memclk else updSeries x.gpu_memclk c
            | none => x.gpu_memclk),
          (match gfan with
            | some f => updSeries x.gpu_fan (Int.cast f)
            | none => x.gpu_fan),
          (match nv with
            | [] => x.nvme
            | (_, t, _) :: _ => updSeries x.nvme t), ?_, ?_, ?_, ?_, ?_, ?_⟩
  · rw [stepGpuClk_shape, stepGpuMemclk_shape, stepGpuFan_shape, stepNvme_shape]
  · cases hclk : gclk with
    | none => exact Or.inl rfl
    | some c =>
      by_cases hc : c = 0
      · exact Or.inl (by simp [hc])
      · exact Or.inr ⟨c, rfl, hc, by simp [hc]⟩
  · cases hclk : gmemclk with
    | none => exact Or.inl rfl
    | some c =>
      by_cases hc : c = 0
      · exact Or.inl (by simp [hc])
      · exact Or.inr ⟨c, rfl, hc, by simp [hc]⟩
  · intro h; rw [h]
  · intro f h; rw [h]
  · intro h; rw [h]

theorem update_eq_some (e : Env) (s s' : State) (h : update e s = some s') :
    ∃ cpu nvm s2,
      read_hwmon e.cpuHw = some cpu ∧
      read_hwmon e.nvmeHw = some nvm ∧
      gpuTempsLoop e.gpuHws
        (stepCpuClk (read_cpu_clock e.cpuCores)
          (stepCpuDie cpu (stepCpuPkg cpu s))) = some s2 ∧
      s' = stepNvme nvm
        (stepGpuFan (read_gpu_clocks_and_fan e.gpuHws).2.2
          (stepGpuMemclk (read_gpu_clocks_and_fan e.gpuHws).2.1
            (stepGpuClk (read_gpu_clocks_and_fan e.gpuHws).1 s2))) := by
  unfold update at h
  split at h
  · exact Option.noConfusion h
  · rename_i cpu hcpu
    split at h
    · exact Option.noConfusion h
    · rename_i s2 hloop
      split at h
      · exact Option.noConfusion h
      · rename_i nvm hnv
        exact ⟨cpu, nvm, s2, hcpu, hnv, hloop, (Option.some.inj h).symm⟩

/-- C9: on a tick over well-formed directories the update succeeds, and
for each metric whose source is absent for the tick (its key missing
from the hwmon mapping, or the clock/fan reader returning `None`) the
metric's series is left exactly as it was. -/
theorem update_frame (e : Env) (s : State)
    (hw : ∀ d ∈ e.cpuHw :: e.nvmeHw :: e.gpuHws, ∀ c ∈ d.temps,
      c.labelContent.isSome → chanParses c = true) :
    ∃ s', update e s = some s' ∧
      ((∀ m, read_hwmon e.cpuHw = some m → lookupTemp m "Tctl" = none) →
        s'.cpu_pkg = s.cpu_pkg) ∧
      ((∀ m, read_hwmon e.cpuHw = some m → lookupTemp m "Tccd1" = none) →
        s'.cpu_die = s.cpu_die) ∧
      (read_cpu_clock e.cpuCores = none → s'.cpu_clk = s.cpu_clk) ∧
      ((∀ d ∈ e.gpuHws, ∀ m, read_hwmon d = some m → lookupTemp m "edge" = none) →
        s'.gpu_temp = s.gpu_temp) ∧
      ((∀ d ∈ e.gpuHws, ∀ m, read_hwmon d = some m → lookupTemp m "junction" = none) →
        s'.gpu_hot = s.gpu_hot) ∧
      ((∀ d ∈ e.gpuHws, ∀ m, read_hwmon d = some m → lookupTemp m "mem" = none) →
        s'.gpu_mem = s.gpu_mem) ∧
      ((read_gpu_clocks_and_fan e.gpuHws).1 = none → s'.gpu_clk = s.gpu_clk) ∧
      ((read_gpu_clocks_and_fan e.gpuHws).2.1 = none → s'.gpu_memclk = s.gpu_memclk) ∧
      ((read_gpu_clocks_and_fan e.gpuHws).2.2 = none → s'.gpu_fan = s.gpu_fan) ∧
      (read_hwmon e.nvmeHw = some [] → s'.nvme = s.nvme) := by
  have hwCpu := hw e.cpuHw (List.mem_cons_self _ _)
  have hwNv := hw e.nvmeHw (List.mem_cons_of_mem _ (List.mem_cons_self _ _))
  have hwGpu : ∀ d ∈ e.gpuHws, ∀ c ∈ d.temps,
      c.labelContent.isSome → chanParses c = true :=
    fun d hd => hw d (List.mem_cons_of_mem _ (List.mem_cons_of_mem _ hd))
  obtain ⟨cpum, hcpu⟩ := read_hwmon_total e.cpuHw hwCpu
  obtain ⟨nvm, hnv⟩ := read_hwmon_total e.nvmeHw hwNv
  obtain ⟨a, b, c2, hhead, hA, hB, hC⟩ :=
    headSteps_shape cpum (read_cpu_clock e.cpuCores) s
  obtain ⟨s2, hloop⟩ := gpuTempsLoop_total e.gpuHws
    (stepCpuClk (read_cpu_clock e.cpuCores) (stepCpuDie cpum (stepCpuPkg cpum s)))
    hwGpu
  obtain ⟨fr1, fr2, fr3, fr4, fr5, fr6, fr7⟩ :=
    gpuTempsLoop_frame e.gpuHws _ s2 hloop
  obtain ⟨ab1, ab2, ab3⟩ := gpuTempsLoop_absent e.gpuHws _ s2 hloop
  obtain ⟨ga, gb, gc, gd, htail, hga, hgb, hgfN, -, hnvE⟩ :=
    tailSteps_shape nvm (read_gpu_clocks_and_fan e.gpuHws).2.2
      (read_gpu_clocks_and_fan e.gpuHws).2.1 (read_gpu_clocks_and_fan e.gpuHws).1 s2
  have hupd : update e s = some (stepNvme nvm
      (stepGpuFan (read_gpu_clocks_and_fan e.gpuHws).2.2
        (stepGpuMemclk (read_gpu_clocks_and_fan e.gpuHws).2.1
          (stepGpuClk (read_gpu_clocks_and_fan e.gpuHws).1 s2)))) := by
    unfold update
    simp only [hcpu, hloop, hnv]
  refine ⟨_, hupd, ?_, ?_, ?_, ?_, ?_, ?_, ?_, ?_, ?_, ?_⟩
  · intro hcond
    have hx : lookupTemp cpum "Tctl" = none := hcond cpum hcpu
    have e1 : (stepNvme nvm
        (stepGpuFan (read_gpu_clocks_and_fan e.gpuHws).2.2
          (stepGpuMemclk (read_gpu_clocks_and_fan e.gpuHws).2.1
            (stepGpuClk (read_gpu_clocks_and_fan e.gpuHws).1 s2)))).cpu_pkg
        = s2.cpu_pkg := by rw [htail]
    have e2 : (stepCpuClk (read_cpu_clock e.cpuCores)
        (stepCpuDie cpum (stepCpuPkg cpum s))).cpu_pkg = a := by rw [hhead]
    exact e1.trans ((fr1.trans e2).trans (hA hx))
  · intro hcond
    have hx : lookupTemp cpum "Tccd1" = none := hcond cpum hcpu
    have e1 : (stepNvme nvm
        (stepGpuFan (read_gpu_clocks_and_fan e.gpuHws).2.2
          (stepGpuMemclk (read_gpu_clocks_and_fan e.gpuHws).2.1
            (stepGpuClk (read_gpu_clocks_and_fan e.gpuHws).1 s2)))).cpu_die
        = s2.cpu_die := by rw [htail]
    have e2 : (stepCpuClk (read_cpu_clock e.cpuCores)
        (stepCpuDie cpum (stepCpuPkg cpum s))).cpu_die = b := by rw [hhead]
    exact e1.trans ((fr2.trans e2).trans (hB hx))
  · intro hcond
    have hc2 : c2 = s.cpu_clk := by
      rcases hC with h | ⟨q, hq, -, -⟩
      · exact h
      · rw [hcond] at hq; cases hq
    have e1 : (stepNvme nvm
        (stepGpuFan (read_gpu_clocks_and_fan e.gpuHws).2.2
          (stepGpuMemclk (read_gpu_clocks_and_fan e.gpuHws).2.1
            (stepGpuClk (read_gpu_clocks_and_fan e.gpuHws).1 s2)))).cpu_clk
        = s2.cpu_clk := by rw [htail]
    have e2 : (stepCpuClk (read_cpu_clock e.cpuCores)
        (stepCpuDie cpum (stepCpuPkg cpum s))).cpu_clk = c2 := by rw [hhead]
    exact e1.trans ((fr3.trans e2).trans hc2)
  · intro hcond
    have e1 : (stepNvme nvm
        (stepGpuFan (read_gpu_clocks_and_fan e.gpuHws).2.2
          (stepGpuMemclk (read_gpu_clocks_and_fan e.gpuHws).2.1
            (stepGpuClk (read_gpu_clocks_and_fan e.gpuHws).1 s2)))).gpu_temp
        = s2.gpu_temp := by rw [htail]
    have e2 : (stepCpuClk (read_cpu_clock e.cpuCores)
        (stepCpuDie cpum (stepCpuPkg cpum s))).gpu_temp = s.gpu_temp := by
      rw [hhead]
    exact e1.trans ((ab1 hcond).trans e2)
  · intro hcond
    have e1 : (stepNvme nvm
        (stepGpuFan (read_gpu_clocks_and_fan e.gpuHws).2.2
          (stepGpuMemclk (read_gpu_clocks_and_fan e.gpuHws).2.1
            (stepGpuClk (read_gpu_clocks_and_fan e.gpuHws).1 s2)))).gpu_hot
        = s2.gpu_hot := by rw [htail]
    have e2 : (stepCpuClk (read_cpu_clock e.cpuCores)
        (stepCpuDie cpum (stepCpuPkg cpum s))).gpu_hot = s.gpu_hot := by
      rw [hhead]
    exact e1.trans ((ab2 hcond).trans e2)
  · intro hcond
    have e1 : (stepNvme nvm
        (stepGpuFan (read_gpu_clocks_and_fan e.gpuHws).2.2
          (stepGpuMemclk (read_gpu_clocks_and_fan e.gpuHws).2.1
            (stepGpuClk (read_gpu_clocks_and_fan e.gpuHws).1 s2)))).gpu_mem
        = s2.gpu_mem := by rw [htail]
    have e2 : (stepCpuClk (read_cpu_clock e.cpuCores)
        (stepCpuDie cpum (stepCpuPkg cpum s))).gpu_mem = s.gpu_mem := by
      rw [hhead]
    exact e1.trans ((ab3 hcond).trans e2)
  · intro hcond
    have hga2 : ga = s2.gpu_clk := by
      rcases hga with h | ⟨q, hq, -, -⟩
      · exact h
      · rw [hcond] at hq; cases hq
    have e1 : (stepNvme nvm
        (stepGpuFan (read_gpu_clocks_and_fan e.gpuHws).2.2
          (stepGpuMemclk (read_gpu_clocks_and_fan e.gpuHws).2.1
            (stepGpuClk (read_gpu_clocks_and_fan e.gpuHws).1 s2)))).gpu_clk
        = ga := by rw [htail]
    have e2 : (stepCpuClk (read_cpu_clock e.cpuCores)
        (stepCpuDie cpum (stepCpuPkg cpum s))).gpu_clk = s.gpu_clk := by
      rw [hhead]
    exact e1.trans (hga2.trans (fr4.trans e2))
  · intro hcond
    have hgb2 : gb = s2.gpu_memclk := by
      rcases hgb with h | ⟨q, hq, -, -⟩
      · exact h
      · rw [hcond] at hq; cases hq
    have e1 : (stepNvme nvm
        (stepGpuFan (read_gpu_clocks_and_fan e.gpuHws).2.2
          (stepGpuMemclk (read_gpu_clocks_and_fan e.gpuHws).2.1
            (stepGpuClk (read_gpu_clocks_and_fan e.gpuHws).1 s2)))).gpu_memclk
        = gb := by rw [htail]
    have e2 : (stepCpuClk (read_cpu_clock e.cpuCores)
        (stepCpuDie cpum (stepCpuPkg cpum s))).gpu_memclk = s.gpu_memclk := by
      rw [hhead]
    exact e1.trans (hgb2.trans (fr5.trans e2))
  · intro hcond
    have e1 : (stepNvme nvm
        (stepGpuFan (read_gpu_clocks_and_fan e.gpuHws).2.2
          (stepGpuMemclk (read_gpu_clocks_and_fan e.gpuHws).2.1
            (stepGpuClk (read_gpu_clocks_and_fan e.gpuHws).1 s2)))).gpu_fan
        = gc := by rw [htail]
    have e2 : (stepCpuClk (read_cpu_clock e.cpuCores)
        (stepCpuDie cpum (stepCpuPkg cpum s))).gpu_fan = s.gpu_fan := by
      rw [hhead]
    exact e1.trans ((hgfN hcond).trans (fr6.trans e2))
  · intro hcond
    have hnvm : nvm = [] := Option.some.inj (hnv.symm.trans hcond)
    have e1 : (stepNvme nvm
        (stepGpuFan (read_gpu_clocks_and_fan e.gpuHws).2.2
          (stepGpuMemclk (read_gpu_clocks_and_fan e.gpuHws).2.1
            (stepGpuClk (read_gpu_clocks_and_fan e.gpuHws).1 s2)))).nvme
        = gd := by rw [htail]
    have e2 : (stepCpuClk (read_cpu_clock e.cpuCores)
        (stepCpuDie cpum (stepCpuPkg cpum s))).nvme = s.nvme := by
      rw [hhead]
    exact e1.trans ((hnvE hnvm).trans (fr7.trans e2))

/-- Witness for C9: against the environment with every source absent,
the tick succeeds and leaves the CPU clock and GPU fan series of a
state with history untouched. -/
theorem update_frame_witness :
    ∃ s', update quietEnv sampleState = some s' ∧
      s'.cpu_clk = sampleState.cpu_clk ∧ s'.gpu_fan = sampleState.gpu_fan := by
  obtain ⟨s', hupd, -, -, f3, -, -, -, -, -, f9, -⟩ :=
    update_frame quietEnv sampleState (by decide)
  exact ⟨s', hupd, f3 rfl, f9 rfl⟩

/-! ## PCI lookup lemmas (towards C5) -/

theorem splitMax1_shape (l : String) :
    splitMax1 l = [] ∨ (∃ t, splitMax1 l = [t]) ∨
      ∃ t nm, splitMax1 l = [t, nm] ∧ nm ≠ "" := by
  unfold splitMax1
  cases hd : dropWS l.data with
  | nil => exact Or.inl rfl
  | cons c cs =>
    rcases htk : takeTok (c :: cs) with ⟨tk, r⟩
    by_cases hr : dropWS r = []
    · refine Or.inr (Or.inl ⟨⟨tk⟩, ?_⟩)
      simp [htk, hr]
    · refine Or.inr (Or.inr ⟨⟨tk⟩, ⟨dropWS r⟩, ?_, ?_⟩)
      · simp [htk, hr]
      · intro h
        exact hr (congrArg String.data h)

theorem splitMax1_two (l : String) (h : has2Toks (splitMax1 l) = true) :
    ∃ t nm, splitMax1 l = [t, nm] ∧ nm ≠ "" := by
  rcases splitMax1_shape l with h0 | ⟨t, h1⟩ | h2
  · rw [h0] at h; simp [has2Toks] at h
  · rw [h1] at h; simp [has2Toks] at h
  · exact h2

theorem contBlock_nil (d : String) : ¬ contBlock d [] := by
  rintro ⟨mid, ld, post, h, -, -⟩
  cases mid <;> simp at h

theorem hasEntry_nil (w d : String) : ¬ hasEntry w d [] := by
  rintro ⟨pre, mid, post, lv, ld, h, -, -, -⟩
  cases pre <;> simp at h

theorem contBlock_cons (d l : String) (rest : List String) :
    contBlock d (l :: rest) ↔
      deviceLineFor d l ∨ (insideBlock l ∧ contBlock d rest) := by
  constructor
  · rintro ⟨mid, ld, post, heq, hmid, hld⟩
    cases mid with
    | nil =>
      simp only [List.nil_append, List.cons.injEq] at heq
      obtain ⟨h1, h2⟩ := heq
      subst h1
      exact Or.inl hld
    | cons m mid' =>
      simp only [List.cons_append, List.cons.injEq] at heq
      obtain ⟨h1, h2⟩ := heq
      subst h1
      refine Or.inr ⟨hmid l (List.mem_cons_self _ _), mid', ld, post, h2, ?_, hld⟩
      exact fun x hx => hmid x (List.mem_cons_of_mem _ hx)
  · rintro (hld | ⟨hin, ⟨mid, ld, post, heq, hmid, hld⟩⟩)
    · exact ⟨[], l, rest, rfl, by simp, hld⟩
    · subst heq
      refine ⟨l :: mid, ld, post, rfl, ?_, hld⟩
      intro x hx
      rcases List.mem_cons.mp hx with h | h
      · subst h; exact hin
      · exact hmid x h

theorem hasEntry_cons (w d l : String) (rest : List String) :
    hasEntry w d (l :: rest) ↔
      (vendorLineFor w l ∧ contBlock d rest) ∨ hasEntry w d rest := by
  constructor
  · rintro ⟨pre, mid, post, lv, ld, heq, hlv, hmid, hld⟩
    cases pre with
    | nil =>
      simp only [List.nil_append, List.cons.injEq] at heq
      obtain ⟨h1, h2⟩ := heq
      subst h1
      exact Or.inl ⟨hlv, mid, ld, post, h2, hmid, hld⟩
    | cons p pre' =>
      simp only [List.cons_append, List.cons.injEq] at heq
      obtain ⟨h1, h2⟩ := heq
      exact Or.inr ⟨pre', mid, post, lv, ld, h2, hlv, hmid, hld⟩
  · rintro (⟨hlv, ⟨mid, ld, post, heq, hmid, hld⟩⟩ |
      ⟨pre, mid, post, lv, ld, heq, hlv, hmid, hld⟩)
    · subst heq
      exact ⟨[], mid, post, l, ld, rfl, hlv, hmid, hld⟩
    · subst heq
      exact ⟨l :: pre, mid, post, lv, ld, rfl, hlv, hmid, hld⟩

theorem pciScan_spec (vendor device : String) :
    ∀ db : List String, wfDb db → ∀ cv : Option String,
      (cv = none ∨ ∃ v, cv = some v ∧ v ≠ "") →
      pciScan vendor device db cv ≠ none ∧
      ((∃ s, pciScan vendor device db cv = some (some s)) ↔
        ((∃ v, cv = some v ∧ v ≠ "") ∧ contBlock device db) ∨
          hasEntry vendor device db) := by
  intro db
  induction db with
  | nil =>
    intro _ cv _
    refine ⟨by simp [pciScan], ?_⟩
    constructor
    · rintro ⟨s, hs⟩
      rw [pciScan] at hs
      exact Option.noConfusion (Option.some.inj hs)
    · rintro (⟨-, hcb⟩ | he)
      · exact absurd hcb (contBlock_nil device)
      · exact absurd he (hasEntry_nil vendor device)
  | cons l rest ih =>
    intro hwf cv hcv
    have hwl : wfLine l = true := hwf l (List.mem_cons_self _ _)
    have hwrest : wfDb rest := fun x hx => hwf x (List.mem_cons_of_mem _ hx)
    cases hsk : skippedLine l with
    | true =>
      have hstep : pciScan vendor device (l :: rest) cv =
          pciScan vendor device rest cv := by
        rcases hcv with rfl | ⟨v, rfl, hvne⟩ <;> (rw [pciScan]; simp [hsk])
      obtain ⟨hne, hiff⟩ := ih hwrest cv hcv
      have hnv : ¬ vendorLineFor vendor l := by
        rintro ⟨h, -, -⟩; rw [hsk] at h; cases h
      have hnd : ¬ deviceLineFor device l := by
        rintro ⟨h, -, -⟩; rw [hsk] at h; cases h
      have hin : insideBlock l := Or.inl hsk
      rw [hstep]
      refine ⟨hne, ?_⟩
      rw [hiff, hasEntry_cons, contBlock_cons]
      constructor
      · rintro (⟨hv, hcb⟩ | he)
        · exact Or.inl ⟨hv, Or.inr ⟨hin, hcb⟩⟩
        · exact Or.inr (Or.inr he)
      · rintro (⟨hv, hdl | ⟨-, hcb⟩⟩ | ⟨hvl, -⟩ | he)
        · exact absurd hdl hnd
        · exact Or.inl ⟨hv, hcb⟩
        · exact absurd hvl hnv
        · exact Or.inr he
    | false =>
      have h2 : has2Toks (splitMax1 l) = true ∧
          has2Toks (splitMax1 (pyStrip l)) = true := by
        unfold wfLine at hwl
        rw [hsk] at hwl
        simpa using hwl
      cases hind : pyStarts l "\t" with
      | true =>
        obtain ⟨t, nm, hsp, hnm⟩ := splitMax1_two _ h2.2
        have hnv : ¬ vendorLineFor vendor l := by
          rintro ⟨-, h, -⟩; rw [hind] at h; cases h
        have hin : insideBlock l := Or.inr hind
        rcases hcv with hnone | ⟨v, hv, hvne⟩
        · subst hnone
          have hstep : pciScan vendor device (l :: rest) none =
              pciScan vendor device rest none := by
            rw [pciScan]; simp [hsk, hind]
          obtain ⟨hne, hiff⟩ := ih hwrest none (Or.inl rfl)
          rw [hstep]
          refine ⟨hne, ?_⟩
          rw [hiff, hasEntry_cons]
          constructor
          · rintro (⟨⟨v, hveq, -⟩, -⟩ | he)
            · cases hveq
            · exact Or.inr (Or.inr he)
          · rintro (⟨⟨v, hveq, -⟩, -⟩ | ⟨hvl, -⟩ | he)
            · cases hveq
            · exact absurd hvl hnv
            · exact Or.inr he
        · subst hv
          by_cases hdev : strLower t = device
          · have hstep : pciScan vendor device (l :: rest) (some v) =
                some (some (v ++ " " ++ nm)) := by
              rw [pciScan]; simp [hsk, hind, hvne, hsp, hdev]
            have hdl : deviceLineFor device l := ⟨hsk, hind, t, [nm], hsp, hdev⟩
            rw [hstep]
            refine ⟨by simp, ?_⟩
            constructor
            · intro _
              exact Or.inl ⟨⟨v, rfl, hvne⟩,
                (contBlock_cons device l rest).mpr (Or.inl hdl)⟩
            · intro _
              exact ⟨v ++ " " ++ nm, rfl⟩
          · have hstep : pciScan vendor device (l :: rest) (some v) =
                pciScan vendor device rest (some v) := by
              rw [pciScan]; simp [hsk, hind, hvne, hsp, hdev]
            have hnd : ¬ deviceLineFor device l := by
              rintro ⟨-, -, t', rest', hsp', hdev'⟩
              rw [hsp] at hsp'
              injection hsp' with ha hb
              subst ha
              exact hdev hdev'
            obtain ⟨hne, hiff⟩ := ih hwrest (some v) (Or.inr ⟨v, rfl, hvne⟩)
            rw [hstep]
            refine ⟨hne, ?_⟩
            rw [hiff, hasEntry_cons, contBlock_cons]
            constructor
            · rintro (⟨hv2, hcb⟩ | he)
              · exact Or.inl ⟨hv2, Or.inr ⟨hin, hcb⟩⟩
              · exact Or.inr (Or.inr he)
            · rintro (⟨hv2, hdl | ⟨-, hcb⟩⟩ | ⟨hvl, -⟩ | he)
              · exact absurd hdl hnd
              · exact Or.inl ⟨hv2, hcb⟩
              · exact absurd hvl hnv
              · exact Or.inr he
      | false =>
        obtain ⟨t, nm, hsp, hnm⟩ := splitMax1_two _ h2.1
        have hnd : ¬ deviceLineFor device l := by
          rintro ⟨-, h, -⟩; rw [hind] at h; cases h
        have hnin : ¬ insideBlock l := by
          rintro (h | h)
          · rw [hsk] at h; cases h
          · rw [hind] at h; cases h
        by_cases hmatch : strLower t = vendor
        · have hvl : vendorLineFor vendor l := ⟨hsk, hind, t, [nm], hsp, hmatch⟩
          have hstep : pciScan vendor device (l :: rest) cv =
              pciScan vendor device rest (some nm) := by
            rcases hcv with rfl | ⟨v, rfl, hvne⟩ <;>
              (rw [pciScan]; simp [hsk, hind, hsp, hmatch])
          obtain ⟨hne, hiff⟩ := ih hwrest (some nm) (Or.inr ⟨nm, rfl, hnm⟩)
          rw [hstep]
          refine ⟨hne, ?_⟩
          rw [hiff, hasEntry_cons, contBlock_cons]
          constructor
          · rintro (⟨-, hcb⟩ | he)
            · exact Or.inr (Or.inl ⟨hvl, hcb⟩)
            · exact Or.inr (Or.inr he)
          · rintro (⟨hv2, hdl | ⟨hin, -⟩⟩ | ⟨-, hcb⟩ | he)
            · exact absurd hdl hnd
            · exact absurd hin hnin
            · exact Or.inl ⟨⟨nm, rfl, hnm⟩, hcb⟩
            · exact Or.inr he
        · have hnv : ¬ vendorLineFor vendor l := by
            rintro ⟨-, -, t', rest', hsp', hm'⟩
            rw [hsp] at hsp'
            injection hsp' with ha hb
            subst ha
            exact hmatch hm'
          have hstep : pciScan vendor device (l :: rest) cv =
              pciScan vendor device rest none := by
            rcases hcv with rfl | ⟨v, rfl, hvne⟩ <;>
              (rw [pciScan]; simp [hsk, hind, hsp, hmatch])
          obtain ⟨hne, hiff⟩ := ih hwrest none (Or.inl rfl)
          rw [hstep]
          refine ⟨hne, ?_⟩
          rw [hiff, hasEntry_cons, contBlock_cons]
          constructor
          · rintro (⟨⟨v, hveq, -⟩, -⟩ | he)
            · cases hveq
            · exact Or.inr (Or.inr he)
          · rintro (⟨hv2, hdl | ⟨hin, -⟩⟩ | ⟨hvl, -⟩ | he)
            · exact absurd hdl hnd
            · exact absurd hin hnin
            · exact absurd hvl hnv
            · exact Or.inr he

/-- C5 counterexample: on the database whose single line is one space,
the claim demands not-found (the vendor id matches no vendor line), but
the scan raises IndexError — Python `parts[0]` of an empty split —
modelled by the outer `none` instead of the not-found `some none`. -/
theorem lookup_pci_name_counterexample :
    lookup_pci_name true [" "] "10de" "1234" = none := rfl

/-- C5 (amended): restricted to well-formed database texts — every line
blank, a comment, or an identifier token followed by a name — the
lookup never raises, matches identifiers case-insensitively, and
succeeds exactly when an unindented vendor line with the vendor id is
followed, before the next unindented non-skipped line, by an indented
device line with the device id; it reports not-found when the file does
not exist or no such pair of lines exists; blank and comment lines are
skipped.  Concrete instances pin the "<vendor name> <device name>"
return value and the case-insensitivity. -/
theorem lookup_pci_name_spec (db : List String) (vendor device : String)
    (hwf : wfDb db) :
    lookup_pci_name true db vendor device ≠ none ∧
    ((∃ s, lookup_pci_name true db vendor device = some (some s)) ↔
      hasEntry (strLower vendor) (strLower device) db) ∧
    (lookup_pci_name true db vendor device = some none ↔
      ¬ hasEntry (strLower vendor) (strLower device) db) ∧
    lookup_pci_name false db vendor device = some none ∧
    lookup_pci_name true ["# comment", "", "10de  NVIDIA Corporation",
      "\t1234 Some GPU"] "10DE" "1234" =
      some (some "NVIDIA Corporation Some GPU") ∧
    lookup_pci_name true ["10de NVIDIA Corporation", "\t1234 Some GPU"]
      "10de" "ffff" = some none := by
  obtain ⟨hne, hiff⟩ :=
    pciScan_spec (strLower vendor) (strLower device) db hwf none (Or.inl rfl)
  have hl : lookup_pci_name true db vendor device =
      pciScan (strLower vendor) (strLower device) db none := by
    simp [lookup_pci_name]
  have hiff2 : (∃ s, pciScan (strLower vendor) (strLower device) db none =
      some (some s)) ↔ hasEntry (strLower vendor) (strLower device) db := by
    rw [hiff]
    constructor
    · rintro (⟨⟨v, hveq, -⟩, -⟩ | he)
      · cases hveq
      · exact he
    · intro he
      exact Or.inr he
  refine ⟨by rw [hl]; exact hne, by rw [hl]; exact hiff2, ?_,
    by simp [lookup_pci_name], by decide, by decide⟩
  rw [hl]
  cases hv : pciScan (strLower vendor) (strLower device) db none with
  | none => exact absurd hv hne
  | some o =>
    cases o with
    | none =>
      constructor
      · intro _ he
        obtain ⟨s, hs⟩ := hiff2.mpr he
        rw [hv] at hs
        exact Option.noConfusion (Option.some.inj hs)
      · intro _; rfl
    | some s =>
      constructor
      · intro h
        exact Option.noConfusion (Option.some.inj h)
      · intro hnh
        exact absurd (hiff2.mp ⟨s, hv⟩) hnh

/-- Witness for C5: the amended characterization applied to a concrete
well-formed database, yielding the resolved name through the iff. -/
theorem lookup_pci_name_spec_witness :
    ∃ s, lookup_pci_name true ["10de NVIDIA Corporation", "\t1234 Some GPU"]
      "10DE" "1234" = some (some s) := by
  obtain ⟨-, hiff, -, -, -, -⟩ := lookup_pci_name_spec
    ["10de NVIDIA Corporation", "\t1234 Some GPU"] "10DE" "1234"
    (by unfold wfDb; decide)
  refine hiff.mpr ⟨[], [], [], "10de NVIDIA Corporation", "\t1234 Some GPU",
    rfl, ⟨by decide, by decide, "10de", ["NVIDIA Corporation"], by decide,
      by decide⟩, by simp, ⟨by decide, by decide, "1234", ["Some GPU"],
      by decide, by decide⟩⟩

/-! ## Device name resolution lemmas (towards C6) -/

theorem goCpuName_eq (ls : List String) :
    goCpuName ls =
      (match (ls.find? (fun l => pyStarts l "model name")) with
       | none => "Unknown CPU"
       | some l =>
         match (afterColon l.data) with
         | some rest => pyStrip ⟨rest⟩
         | none => "Unknown CPU") := by
  induction ls with
  | nil => rfl
  | cons x ls ih =>
    cases hx : pyStarts x "model name" with
    | true => simp [goCpuName, hx, List.find?_cons]
    | false => simp [goCpuName, hx, List.find?_cons, ih]

theorem goGpuName_eq (cards : List Card) (dbE : Bool) (db : List String) :
    goGpuName cards dbE db =
      (match (cards.find? usableCard) with
       | none => ("Unknown GPU", false)
       | some c =>
         match c.vendorContent, c.deviceContent with
         | some vc, some dc =>
           (match (lookup_pci_name dbE db (pyReplace0x (pyStrip vc))
               (pyReplace0x (pyStrip dc))) with
            | none => ("Unknown GPU", false)
            | some (some nm) =>
              if nm = "" then
                (gpuFallback (pyReplace0x (pyStrip vc)) (pyReplace0x (pyStrip dc)),
                  false)
              else (nm, true)
            | some none =>
              (gpuFallback (pyReplace0x (pyStrip vc)) (pyReplace0x (pyStrip dc)),
                false))
         | _, _ => ("Unknown GPU", false)) := by
  induction cards with
  | nil => rfl
  | cons c cs ih =>
    cases hv : c.vendorContent with
    | none =>
      have hu : usableCard c = false := by simp [usableCard, hv]
      simp [goGpuName, hv, List.find?_cons, hu, ih]
    | some vc =>
      cases hd : c.deviceContent with
      | none =>
        have hu : usableCard c = false := by simp [usableCard, hv, hd]
        simp [goGpuName, hv, hd, List.find?_cons, hu, ih]
      | some dc =>
        have hu : usableCard c = true := by simp [usableCard, hv, hd]
        simp [goGpuName, hv, hd, List.find?_cons, hu]

/-- C6 counterexample: with a usable card and a database holding one
whitespace-only line, the lookup raises (IndexError, modelled `none`)
and the blanket handler returns ("Unknown GPU", false) — not the
id-embedding fallback string the claim requires for a usable card. -/
theorem get_gpu_name_counterexample :
    get_gpu_name [⟨some "0x10de", some "0x1234"⟩] true [" "] =
      ("Unknown GPU", false) ∧
    get_gpu_name [⟨some "0x10de", some "0x1234"⟩] true [" "] ≠
      ("AMD Radeon [10de:1234]", false) ∧
    lookup_pci_name true [" "] "10de" "1234" = none := by
  exact ⟨rfl, by decide, rfl⟩

/-- C6 (amended): the resolver never raises — `get_cpu_name` returns the
stripped text after the first colon of the first "model name" line and
"Unknown CPU" on any failure; `get_gpu_name` answers for the first card
exposing both identifier files: the resolved name with `true` on lookup
success, the fallback embedding the raw vendor:device pair with `false`
when the lookup reports not-found, ("Unknown GPU", false) when no card
is usable, and also ("Unknown GPU", false) when the lookup itself raises
on a malformed database. -/
theorem device_name_resolver_spec :
    get_cpu_name none = "Unknown CPU" ∧
    (∀ ls : List String, ls.find? (fun l => pyStarts l "model name") = none →
      get_cpu_name (some ls) = "Unknown CPU") ∧
    (∀ (ls : List String) (l : String),
      ls.find? (fun l => pyStarts l "model name") = some l →
      (∀ rest, afterColon l.data = some rest →
        get_cpu_name (some ls) = pyStrip ⟨rest⟩) ∧
      (afterColon l.data = none → get_cpu_name (some ls) = "Unknown CPU")) ∧
    (∀ (cards : List Card) (dbE : Bool) (db : List String),
      cards.find? usableCard = none →
      get_gpu_name cards dbE db = ("Unknown GPU", false)) ∧
    (∀ (cards : List Card) (dbE : Bool) (db : List String) (c : Card)
      (vc dc : String),
      cards.find? usableCard = some c →
      c.vendorContent = some vc → c.deviceContent = some dc →
      (lookup_pci_name dbE db (pyReplace0x (pyStrip vc))
          (pyReplace0x (pyStrip dc)) = none →
        get_gpu_name cards dbE db = ("Unknown GPU", false)) ∧
      (lookup_pci_name dbE db (pyReplace0x (pyStrip vc))
          (pyReplace0x (pyStrip dc)) = some none →
        get_gpu_name cards dbE db =
          (gpuFallback (pyReplace0x (pyStrip vc)) (pyReplace0x (pyStrip dc)),
            false)) ∧
      (∀ nm, lookup_pci_name dbE db (pyReplace0x (pyStrip vc))
          (pyReplace0x (pyStrip dc)) = some (some nm) → nm ≠ "" →
        get_gpu_name cards dbE db = (nm, true))) := by
  refine ⟨rfl, ?_, ?_, ?_, ?_⟩
  · intro ls h
    simp [get_cpu_name, goCpuName_eq, h]
  · intro ls l h
    constructor
    · intro rest hr
      simp [get_cpu_name, goCpuName_eq, h, hr]
    · intro hr
      simp [get_cpu_name, goCpuName_eq, h, hr]
  · intro cards dbE db h
    simp [get_gpu_name, goGpuName_eq, h]
  · intro cards dbE db c vc dc hfind hvc hdc
    refine ⟨?_, ?_, ?_⟩
    · intro hlk
      simp [get_gpu_name, goGpuName_eq, hfind, hvc, hdc, hlk]
    · intro hlk
      simp [get_gpu_name, goGpuName_eq, hfind, hvc, hdc, hlk]
    · intro nm hlk hnm
      simp [get_gpu_name, goGpuName_eq, hfind, hvc, hdc, hlk, hnm]

/-- Witness for C6: a concrete card resolved against a concrete
database, and a concrete cpuinfo line. -/
theorem device_name_resolver_spec_witness :
    get_gpu_name [⟨some "0x10de", some "0x1234"⟩] true
      ["10de NVIDIA Corporation", "\t1234 Some GPU"] =
      ("NVIDIA Corporation Some GPU", true) ∧
    get_cpu_name (some ["processor : 0", "model name : AMD Ryzen 7"]) =
      "AMD Ryzen 7" := by
  obtain ⟨-, -, hcpu, -, hgpu⟩ := device_name_resolver_spec
  constructor
  · exact (hgpu [⟨some "0x10de", some "0x1234"⟩] true
      ["10de NVIDIA Corporation", "\t1234 Some GPU"]
      ⟨some "0x10de", some "0x1234"⟩ "0x10de" "0x1234"
      (by decide) rfl rfl).2.2 "NVIDIA Corporation Some GPU" (by decide)
      (by decide)
  · exact ((hcpu ["processor : 0", "model name : AMD Ryzen 7"]
      "model name : AMD Ryzen 7" (by decide)).1
      " AMD Ryzen 7".data (by decide)).trans (by decide)

/-! ## Zero readings (towards C10) -/

theorem updSeries_mn_ne_zero (old : Series) (t : ℚ)
    (h0 : old.mn ≠ some 0) (ht : t ≠ 0) :
    (updSeries old t).mn ≠ some 0 := by
  cases hm : old.mn with
  | none => simp [updSeries, hm, ht]
  | some m =>
    have hm0 : m ≠ 0 := fun h => h0 (by rw [hm, h])
    simp only [updSeries, hm, Option.some.injEq]
    intro hmin
    rcases min_choice m t with hc | hc <;> rw [hc] at hmin
    · exact hm0 (Option.some.inj hmin)
    · exact ht (Option.some.inj hmin)

theorem update_clk_inv (e : Env) (s s' : State) (h : update e s = some s')
    (h1 : s.cpu_clk.mn ≠ some 0) (h2 : s.gpu_clk.mn ≠ some 0)
    (h3 : s.gpu_memclk.mn ≠ some 0) :
    s'.cpu_clk.mn ≠ some 0 ∧ s'.gpu_clk.mn ≠ some 0 ∧
      s'.gpu_memclk.mn ≠ some 0 := by
  obtain ⟨cpu, nvm, s2, hcpu, hnv, hloop, hs'⟩ := update_eq_some e s s' h
  obtain ⟨a, b, c2, hhead, -, -, hC⟩ :=
    headSteps_shape cpu (read_cpu_clock e.cpuCores) s
  obtain ⟨fr1, fr2, fr3, fr4, fr5, fr6, fr7⟩ :=
    gpuTempsLoop_frame e.gpuHws _ s2 hloop
  obtain ⟨ga, gb, gc, gd, htail, hga, hgb, -, -, -⟩ :=
    tailSteps_shape nvm (read_gpu_clocks_and_fan e.gpuHws).2.2
      (read_gpu_clocks_and_fan e.gpuHws).2.1 (read_gpu_clocks_and_fan e.gpuHws).1 s2
  have hs2clk : s2.cpu_clk = c2 := by
    refine fr3.trans ?_
    rw [hhead]
  have hs2gclk : s2.gpu_clk = s.gpu_clk := by
    refine fr4.trans ?_
    rw [hhead]
  have hs2gmem : s2.gpu_memclk = s.gpu_memclk := by
    refine fr5.trans ?_
    rw [hhead]
  subst hs'
  refine ⟨?_, ?_, ?_⟩
  · have hp : (stepNvme nvm
        (stepGpuFan (read_gpu_clocks_and_fan e.gpuHws).2.2
          (stepGpuMemclk (read_gpu_clocks_and_fan e.gpuHws).2.1
            (stepGpuClk (read_gpu_clocks_and_fan e.gpuHws).1 s2)))).cpu_clk
        = c2 := by rw [htail, hs2clk]
    rw [hp]
    rcases hC with hc | ⟨q, -, hq0, hc⟩
    · rw [hc]; exact h1
    · rw [hc]; exact updSeries_mn_ne_zero s.cpu_clk q h1 hq0
  · have hp : (stepNvme nvm
        (stepGpuFan (read_gpu_clocks_and_fan e.gpuHws).2.2
          (stepGpuMemclk (read_gpu_clocks_and_fan e.gpuHws).2.1
            (stepGpuClk (read_gpu_clocks_and_fan e.gpuHws).1 s2)))).gpu_clk
        = ga := by rw [htail]
    rw [hp]
    rcases hga with hc | ⟨q, -, hq0, hc⟩
    · rw [hc, hs2gclk]; exact h2
    · rw [hc, hs2gclk]; exact updSeries_mn_ne_zero s.gpu_clk q h2 hq0
  · have hp : (stepNvme nvm
        (stepGpuFan (read_gpu_clocks_and_fan e.gpuHws).2.2
          (stepGpuMemclk (read_gpu_clocks_and_fan e.gpuHws).2.1
            (stepGpuClk (read_gpu_clocks_and_fan e.gpuHws).1 s2)))).gpu_memclk
        = gb := by rw [htail]
    rw [hp]
    rcases hgb with hc | ⟨q, -, hq0, hc⟩
    · rw [hc, hs2gmem]; exact h3
    · rw [hc, hs2gmem]; exact updSeries_mn_ne_zero s.gpu_memclk q h3 hq0

theorem run_clk_inv (es : List Env) :
    ∀ s s' : State, run es s = some s' →
      s.cpu_clk.mn ≠ some 0 → s.gpu_clk.mn ≠ some 0 →
      s.gpu_memclk.mn ≠ some 0 →
      s'.cpu_clk.mn ≠ some 0 ∧ s'.gpu_clk.mn ≠ some 0 ∧
        s'.gpu_memclk.mn ≠ some 0 := by
  induction es with
  | nil =>
    intro s s' h h1 h2 h3
    cases Option.some.inj h
    exact ⟨h1, h2, h3⟩
  | cons e es ih =>
    intro s s' h h1 h2 h3
    rw [run] at h
    cases hu : update e s with
    | none => rw [hu] at h; cases h
    | some s1 =>
      rw [hu] at h
      have hh : run es s1 = some s' := h
      obtain ⟨g1, g2, g3⟩ := update_clk_inv e s s1 hu h1 h2 h3
      exact ih s1 s' hh g1 g2 g3

/-- C10: a reading of exactly 0 for the CPU clock, GPU core clock or GPU
memory clock falls to the Python truthiness guard and is skipped, while
a GPU fan reading of 0 aggregates normally (its guard only tests for
`None`); hence from the initial state the fan's min can become 0 after
one tick, but along any run no clock's min is ever 0. -/
theorem zero_reading_guards :
    (∀ s : State, stepCpuClk (some 0) s = s) ∧
    (∀ s : State, stepGpuClk (some 0) s = s) ∧
    (∀ s : State, stepGpuMemclk (some 0) s = s) ∧
    (∀ s : State, stepGpuFan (some 0) s =
      { s with gpu_fan := updSeries s.gpu_fan 0 }) ∧
    (∃ s', run [fanZeroEnv] initState = some s' ∧
      s'.gpu_fan.mn = some 0 ∧ s'.gpu_fan.cur = some 0) ∧
    (∀ (es : List Env) (s' : State), run es initState = some s' →
      s'.cpu_clk.mn ≠ some 0 ∧ s'.gpu_clk.mn ≠ some 0 ∧
        s'.gpu_memclk.mn ≠ some 0) := by
  refine ⟨?_, ?_, ?_, ?_, ?_, ?_⟩
  · intro s; simp [stepCpuClk]
  · intro s; simp [stepGpuClk]
  · intro s; simp [stepGpuMemclk]
  · intro s; simp [stepGpuFan]
  · exact ⟨{ initState with gpu_fan := ⟨some 0, some 0, some 0⟩ },
      by decide, rfl, rfl⟩
  · intro es s' h
    exact run_clk_inv es initState s' h (by decide) (by decide) (by decide)

/-- Witness for C10: the zero clock is skipped on a concrete state, and
after the concrete zero-fan run the CPU clock min is not 0. -/
theorem zero_reading_guards_witness :
    stepCpuClk (some 0) sampleState = sampleState ∧
    ∃ s', run [fanZeroEnv] initState = some s' ∧ s'.cpu_clk.mn ≠ some 0 := by
  obtain ⟨z1, -, -, -, ⟨s', hrun, -, -⟩, inv⟩ := zero_reading_guards
  exact ⟨z1 sampleState, s', hrun, (inv [fanZeroEnv] s' hrun).1⟩

/-- Witness for C3: the sample directory's first channel is looked up
with its stripped label, carrying its parsed value. -/
theorem read_hwmon_label_policy_witness :
    ∃ m, read_hwmon sampleDir = some m ∧
      ∃ v, parsePyInt "45000" = some v ∧
        lookupTemp m (pyStrip "Tctl ") =
          some ((Int.cast v : ℚ) / 1000,
            critValQ ⟨"1", "45000", some "Tctl ", some "95000"⟩) := by
  obtain ⟨m, hm, hinc, -, -⟩ :=
    read_hwmon_label_policy sampleDir (by decide) (by decide)
  exact ⟨m, hm,
    hinc ⟨"1", "45000", some "Tctl ", some "95000"⟩ (by decide) "Tctl " rfl⟩

end Thermals
